import Mathlib

/-!
Shallow embedding of the nRF52/nRF9160 TWIM (I2C master) driver
(cpu/nrf5x_common_pip/periph/i2c_nrf52_nrf9160.c) over an explicit
machine state: a byte-addressed memory, a register file accessed through
the privileged Pip_in/Pip_out primitives, the shared transmit staging
buffer with its lock, and an event trace recording every register access,
lock operation and memory copy.  Hardware completion (the interrupt that
unlocks the per-bus busy mutex, and the latched event registers at that
moment) is supplied as an explicit oracle.
-/

/-- Number of configured I2C buses: the board device table
(boards/dwm1001_pip/include/periph_conf.h) has a single TWIM1 entry. -/
def I2C_NUMOF : Nat := 1

/-- Modelled from the spec: the four recognized transaction flags of the
caller's flag bitset (RIOT periph/i2c.h values; the driver only tests
them as distinct bits). 10-bit addressing flag. -/
def I2C_ADDR10 : Nat := 1

/-- Modelled from the spec: 16-bit register address flag. -/
def I2C_REG16 : Nat := 2

/-- Modelled from the spec: suppress-stop flag. -/
def I2C_NOSTOP : Nat := 4

/-- Modelled from the spec: suppress-start flag. -/
def I2C_NOSTART : Nat := 8

/-- errno value EIO (transfer I/O error); the driver returns its negation. -/
def eio : Int := 5

/-- errno value ENXIO (no such device or address). -/
def enxio : Int := 6

/-- errno value EOPNOTSUPP (operation not supported). -/
def eopnotsupp : Int := 95

/-- TWIM ERRORSRC register: NACK received after the address byte. -/
def TWIM_ERRORSRC_ANACK_Msk : Nat := 2

/-- TWIM ERRORSRC register: NACK received after a data byte. -/
def TWIM_ERRORSRC_DNACK_Msk : Nat := 4

/-- TWIM INTEN register: STOPPED event interrupt bit. -/
def TWIM_INTEN_STOPPED_Msk : Nat := 2

/-- TWIM INTEN register: ERROR event interrupt bit. -/
def TWIM_INTEN_ERROR_Msk : Nat := 512

/-- TWIM INTEN register: LASTTX event interrupt bit. -/
def TWIM_INTEN_LASTTX_Msk : Nat := 16777216

/-- TWIM SHORTS register: LASTTX event starts the RX task. -/
def TWIM_SHORTS_LASTTX_STARTRX_Msk : Nat := 128

/-- TWIM SHORTS register: LASTTX event triggers the STOP task. -/
def TWIM_SHORTS_LASTTX_STOP_Msk : Nat := 512

/-- TWIM SHORTS register: LASTRX event triggers the STOP task. -/
def TWIM_SHORTS_LASTRX_STOP_Msk : Nat := 4096

/-- TWIM ENABLE register value enabling the peripheral. -/
def TWIM_ENABLE_ENABLE_Enabled : Nat := 6

/-- TWIM ENABLE register value disabling the peripheral. -/
def TWIM_ENABLE_ENABLE_Disabled : Nat := 0

/-- Base of the directly-DMA-addressable RAM range (nRF52832 data RAM). -/
def CPU_RAM_BASE : Nat := 0x20000000

/-- Size of the directly-DMA-addressable RAM range. -/
def CPU_RAM_SIZE : Nat := 0x10000

/-- Address of the static 256-byte shared staging buffer tx_buf, a static
object placed in RAM (inside the DMA-addressable range). -/
def TX_BUF_ADDR : Nat := 0x20004000

/-- Address of the stack slot holding the local register-selector variable
of i2c_read_regs (the driver points TXD.PTR at a local uint16_t). -/
def REG_STACK_ADDR : Nat := 0x20008000

/-- Register index (offset within one bus's register block) of ENABLE. -/
def ENABLE_I : Nat := 0

/-- Register index of PSEL.SCL. -/
def PSEL_SCL_I : Nat := 1

/-- Register index of PSEL.SDA. -/
def PSEL_SDA_I : Nat := 2

/-- Register index of FREQUENCY. -/
def FREQUENCY_I : Nat := 3

/-- Register index of ADDRESS. -/
def ADDRESS_I : Nat := 4

/-- Register index of TXD.PTR. -/
def TXD_PTR_I : Nat := 5

/-- Register index of TXD.MAXCNT. -/
def TXD_MAXCNT_I : Nat := 6

/-- Register index of RXD.PTR. -/
def RXD_PTR_I : Nat := 7

/-- Register index of RXD.MAXCNT. -/
def RXD_MAXCNT_I : Nat := 8

/-- Register index of SHORTS. -/
def SHORTS_I : Nat := 9

/-- Register index of INTENSET; the accumulated interrupt-enable mask is
stored under this index. -/
def INTENSET_I : Nat := 10

/-- Register index of INTENCLR (writes clear bits of the stored mask). -/
def INTENCLR_I : Nat := 11

/-- Register index of the latched EVENTS_STOPPED event. -/
def EVENTS_STOPPED_I : Nat := 12

/-- Register index of the latched EVENTS_ERROR event. -/
def EVENTS_ERROR_I : Nat := 13

/-- Register index of ERRORSRC (write-1-to-clear hardware register). -/
def ERRORSRC_I : Nat := 14

/-- Register index of TXD.AMOUNT (bytes transmitted so far); the source
reads it through the PIP_NRF_TWIM_TWIM1_TXD_MAXAMOUNT_INDEX constant. -/
def TXD_AMOUNT_I : Nat := 15

/-- Register index of TASKS_STARTTX. -/
def TASKS_STARTTX_I : Nat := 16

/-- Register index of TASKS_STARTRX. -/
def TASKS_STARTRX_I : Nat := 17

/-- Register index of TASKS_STOP (never written by this driver; stops only
ever come from the armed SHORTS). -/
def TASKS_STOP_I : Nat := 18

/-- Absolute base address of the register block of bus dev
(i2c_config[dev].dev in the device table); blocks are 256-aligned so a
register's index is its absolute address modulo 256. -/
def busBase (dev : Nat) : Nat := 0x1000 + dev * 256

/-- Observable events of a driver run: privileged register writes and
reads, acquisition and release of the staging-buffer lock, the blocking
wait on the per-bus busy mutex, and byte copies into memory. -/
inductive Ev where
  | regW (a v : Nat)
  | regR (a v : Nat)
  | lockBuf
  | unlockBuf
  | waitBusy (dev : Nat)
  | copy (dst src len : Nat)
deriving DecidableEq

/-- Machine state threaded through the driver: byte memory, register
file (by absolute register address), the staging-buffer lock, and the
chronological event trace. -/
structure S where
  mem : Nat → Nat
  regs : Nat → Nat
  bufLocked : Bool
  trace : List Ev

/-- Result of a driver call: a returned error code with the final state,
a failed fatal assertion, a dereference of a null pointer (undefined
behaviour in the source), or an unbounded wait that never terminates. -/
inductive Outcome where
  | ok (ret : Int) (s : S)
  | assertFail
  | nullDeref
  | hang

/-- Return code of a completed call, if it completed. -/
def Outcome.retOf : Outcome → Option Int
  | .ok r _ => some r
  | _ => none

/-- Final state of a completed call, if it completed. -/
def Outcome.stOf : Outcome → Option S
  | .ok _ s => some s
  | _ => none

/-- Clear in a 32-bit register value every bit set in v (write-1-to-clear
semantics of ERRORSRC and the effect of INTENCLR). -/
def clearBits (old v : Nat) : Nat := old &&& (4294967295 ^^^ (v &&& 4294967295))

/-- Store a list of bytes into memory at consecutive addresses. -/
def storeBytes : (Nat → Nat) → Nat → List Nat → (Nat → Nat)
  | m, _, [] => m
  | m, p, b :: bs => storeBytes (fun a => if a = p then b else m a) (p + 1) bs

/-- Read len consecutive bytes of memory starting at p. -/
def bytesAt (m : Nat → Nat) (p len : Nat) : List Nat :=
  (List.range len).map (fun i => m (p + i))

/-- Pip_out: privileged register write.  Hardware write semantics by
register index: INTENSET ors the written bits into the stored
interrupt-enable mask, INTENCLR clears them from it, ERRORSRC is
write-1-to-clear; every other register stores the written 32-bit value. -/
def pipOut (s : S) (a v : Nat) : S :=
  let idx := a % 256
  let base := a - idx
  let regs' : Nat → Nat :=
    if idx = INTENSET_I then
      fun x => if x = base + INTENSET_I then s.regs x ||| v else s.regs x
    else if idx = INTENCLR_I then
      fun x => if x = base + INTENSET_I then clearBits (s.regs x) v else s.regs x
    else if idx = ERRORSRC_I then
      fun x => if x = a then clearBits (s.regs x) v else s.regs x
    else
      fun x => if x = a then v % 4294967296 else s.regs x
  { s with regs := regs', trace := s.trace ++ [Ev.regW a v] }

/-- Pip_in: privileged register read, returning the stored value and
recording the read in the trace. -/
def pipIn (s : S) (a : Nat) : Nat × S :=
  (s.regs a, { s with trace := s.trace ++ [Ev.regR a (s.regs a)] })

/-- Hardware completion oracle for one wait in finish: the latched
EVENTS_STOPPED and EVENTS_ERROR values and the ERRORSRC contents at the
moment the interrupt released the busy mutex, plus the successive
(TXD.AMOUNT, EVENTS_ERROR) observations made by the LASTTX busy-poll. -/
structure HwFinish where
  stopped : Bool
  error : Bool
  errorsrc : Nat
  poll : List (Nat × Bool)

/-- Register-file effect of hardware completion and of the interrupt
handler i2c_isr_handler that runs before the busy mutex is released: the
event registers hold their latched values and the handler has masked
(INTENCLR) the three possibly-armed interrupt sources. -/
def hwDeliver (dev : Nat) (hw : HwFinish) (regs : Nat → Nat) : Nat → Nat :=
  fun x =>
    if x = busBase dev + EVENTS_STOPPED_I then (if hw.stopped then 1 else 0)
    else if x = busBase dev + EVENTS_ERROR_I then (if hw.error then 1 else 0)
    else if x = busBase dev + ERRORSRC_I then hw.errorsrc % 4294967296
    else if x = busBase dev + INTENSET_I then
      clearBits (regs x)
        (TWIM_INTEN_STOPPED_Msk ||| TWIM_INTEN_ERROR_Msk ||| TWIM_INTEN_LASTTX_Msk)
    else regs x

/-- The active busy-wait loop of finish in the LASTTX case: the loop body
runs while the transmitted count differs from TXD.MAXCNT and the error
event is clear; it returns the error observation at exit, or none when no
observation in the (arbitrarily long) sample sequence exits the loop,
modelling an unbounded spin. -/
def pollLoop (maxcnt : Nat) : List (Nat × Bool) → Option Bool
  | [] => none
  | (amt, err) :: rest =>
    if amt ≠ maxcnt ∧ err = false then pollLoop maxcnt rest else some err

/-- Error classification at the end of finish: if the latched error event
is set, clear it; a set ANACK bit of ERRORSRC is cleared and reported as
-ENXIO; otherwise a set DNACK bit is cleared and reported as -EIO; any
other case reports success. -/
def classify (s : S) (dev : Nat) : Outcome :=
  let bB := busBase dev
  let p := pipIn s (bB + EVENTS_ERROR_I)
  if p.1 ≠ 0 then
    let s1 := pipOut p.2 (bB + EVENTS_ERROR_I) 0
    let q := pipIn s1 (bB + ERRORSRC_I)
    if q.1 &&& TWIM_ERRORSRC_ANACK_Msk ≠ 0 then
      Outcome.ok (-enxio) (pipOut q.2 (bB + ERRORSRC_I) TWIM_ERRORSRC_ANACK_Msk)
    else
      let r := pipIn q.2 (bB + ERRORSRC_I)
      if r.1 &&& TWIM_ERRORSRC_DNACK_Msk ≠ 0 then
        Outcome.ok (-eio) (pipOut r.2 (bB + ERRORSRC_I) TWIM_ERRORSRC_DNACK_Msk)
      else Outcome.ok 0 r.2
  else Outcome.ok 0 p.2

/-- The wait-and-classify routine finish: unmask the success interrupt
and the error interrupt, block on the busy mutex until the interrupt
handler releases it (hardware completion delivered by the oracle), clear
a latched stop event, busy-poll the transmitted count in the LASTTX
case, then classify. -/
def finish (s : S) (dev flag : Nat) (hw : HwFinish) : Outcome :=
  let bB := busBase dev
  let s1 := pipOut s (bB + INTENSET_I) (flag ||| TWIM_INTEN_ERROR_Msk)
  let s2 : S :=
    { s1 with
      regs := hwDeliver dev hw s1.regs,
      trace := s1.trace ++ [Ev.waitBusy dev] }
  let p3 := pipIn s2 (bB + EVENTS_STOPPED_I)
  let s3 := if p3.1 ≠ 0 then pipOut p3.2 (bB + EVENTS_STOPPED_I) 0 else p3.2
  if flag &&& TWIM_INTEN_LASTTX_Msk ≠ 0 then
    match pollLoop (s3.regs (bB + TXD_MAXCNT_I)) hw.poll with
    | none => Outcome.hang
    | some _ => classify s3 dev
  else classify s3 dev

/-- Release of the staging-buffer lock after the delegated direct write
returns: on a completed call the lock is dropped and the release logged;
a fatal assertion, null dereference or hang propagates unchanged (the C
code never reaches the unlock there). -/
def unlockAfter (o : Outcome) : Outcome :=
  match o with
  | Outcome.ok r s' =>
    Outcome.ok r
      { s' with
        bufLocked := false,
        trace := s'.trace ++ [Ev.unlockBuf] }
  | o2 => o2

/-- direct_i2c_write_bytes: the plain-write engine, requiring data in
DMA-reachable RAM.  Asserts the caller contract, rejects suppress-start
and 10-bit addressing, programs address, transmit pointer and count,
arms the LASTTX-to-STOP short and waits for STOPPED unless suppress-stop
is requested (in which case no short is armed and the wait is on LASTTX),
triggers STARTTX and delegates to finish. -/
def direct_i2c_write_bytes (dev addr ptr len flags : Nat) (s : S)
    (hw : HwFinish) : Outcome :=
  let a := addr % 65536
  let fl := flags % 256
  if dev < I2C_NUMOF ∧ ptr ≠ 0 ∧ 0 < len ∧ len < 256 then
    if fl &&& (I2C_NOSTART ||| I2C_ADDR10) ≠ 0 then Outcome.ok (-eopnotsupp) s
    else
      let bB := busBase dev
      let s := pipOut s (bB + ADDRESS_I) a
      let s := pipOut s (bB + TXD_PTR_I) ptr
      let s := pipOut s (bB + TXD_MAXCNT_I) (len % 256)
      if fl &&& I2C_NOSTOP = 0 then
        let s := pipOut s (bB + SHORTS_I) TWIM_SHORTS_LASTTX_STOP_Msk
        let s := pipOut s (bB + TASKS_STARTTX_I) 1
        finish s dev TWIM_INTEN_STOPPED_Msk hw
      else
        let s := pipOut s (bB + SHORTS_I) 0
        let s := pipOut s (bB + TASKS_STARTTX_I) 1
        finish s dev TWIM_INTEN_LASTTX_Msk hw
  else Outcome.assertFail

/-- i2c_write_bytes: a source buffer inside the DMA-addressable RAM range
is handed to the hardware directly; any other source is staged into the
shared tx_buf under its lock (after asserting only the length bounds
needed by the copy) and the direct path runs on the staged copy, after
which the lock is released.  A null source is outside the RAM range and
is dereferenced by the copy. -/
def i2c_write_bytes (dev addr ptr len flags : Nat) (s : S)
    (hw : HwFinish) : Outcome :=
  if CPU_RAM_BASE ≤ ptr ∧ ptr < CPU_RAM_BASE + CPU_RAM_SIZE then
    direct_i2c_write_bytes dev addr ptr len flags s hw
  else if 0 < len ∧ len < 256 then
    let s := { s with bufLocked := true, trace := s.trace ++ [Ev.lockBuf] }
    if ptr = 0 then Outcome.nullDeref
    else
      let s := { s with
        mem := storeBytes s.mem TX_BUF_ADDR (bytesAt s.mem ptr len),
        trace := s.trace ++ [Ev.copy TX_BUF_ADDR ptr len] }
      unlockAfter (direct_i2c_write_bytes dev addr TX_BUF_ADDR len flags s hw)
  else Outcome.assertFail

/-- i2c_write_regs: asserts the caller contract (length below 253),
rejects suppress-start and 10-bit addressing, then under the
staging-buffer lock writes the register selector (big-endian two bytes
when I2C_REG16 is set, one truncated byte otherwise) at the start of
tx_buf, copies the payload immediately after it, runs the direct write
on the staged selector-plus-payload, and releases the lock. -/
def i2c_write_regs (dev addr reg ptr len flags : Nat) (s : S)
    (hw : HwFinish) : Outcome :=
  let r := reg % 65536
  let fl := flags % 256
  if dev < I2C_NUMOF ∧ ptr ≠ 0 ∧ 0 < len ∧ len < 253 then
    if fl &&& (I2C_NOSTART ||| I2C_ADDR10) ≠ 0 then Outcome.ok (-eopnotsupp) s
    else
      let s := { s with bufLocked := true, trace := s.trace ++ [Ev.lockBuf] }
      let rlen := if fl &&& I2C_REG16 ≠ 0 then 2 else 1
      let sel := if fl &&& I2C_REG16 ≠ 0 then [r >>> 8, r &&& 255] else [r % 256]
      let s := { s with mem := storeBytes s.mem TX_BUF_ADDR sel }
      let s := { s with
        mem := storeBytes s.mem (TX_BUF_ADDR + rlen) (bytesAt s.mem ptr len),
        trace := s.trace ++ [Ev.copy (TX_BUF_ADDR + rlen) ptr len] }
      unlockAfter (direct_i2c_write_bytes dev addr TX_BUF_ADDR (rlen + len) flags s hw)
  else Outcome.assertFail

/-- i2c_read_bytes: asserts the caller contract, rejects suppress-start,
10-bit addressing and suppress-stop, programs address, receive pointer
and count, arms the LASTRX-to-STOP short, triggers STARTRX and waits for
STOPPED. -/
def i2c_read_bytes (dev addr ptr len flags : Nat) (s : S)
    (hw : HwFinish) : Outcome :=
  let a := addr % 65536
  let fl := flags % 256
  if dev < I2C_NUMOF ∧ ptr ≠ 0 ∧ 0 < len ∧ len < 256 then
    if fl &&& (I2C_NOSTART ||| I2C_ADDR10 ||| I2C_NOSTOP) ≠ 0 then
      Outcome.ok (-eopnotsupp) s
    else
      let bB := busBase dev
      let s := pipOut s (bB + ADDRESS_I) a
      let s := pipOut s (bB + RXD_PTR_I) ptr
      let s := pipOut s (bB + RXD_MAXCNT_I) (len % 256)
      let s := pipOut s (bB + SHORTS_I) TWIM_SHORTS_LASTRX_STOP_Msk
      let s := pipOut s (bB + TASKS_STARTRX_I) 1
      finish s dev TWIM_INTEN_STOPPED_Msk hw
  else Outcome.assertFail

/-- i2c_read_regs: asserts the caller contract, rejects suppress-start,
10-bit addressing and suppress-stop, then programs one single transfer:
the register selector (byte-swapped to big-endian and transmitted as two
bytes under I2C_REG16, one byte otherwise, from a local variable whose
little-endian layout is written to its stack slot), the receive pointer
and count, the LASTTX-to-STARTRX and LASTRX-to-STOP shorts, a single
STARTTX trigger, and one wait for STOPPED. -/
def i2c_read_regs (dev addr reg ptr len flags : Nat) (s : S)
    (hw : HwFinish) : Outcome :=
  let a := addr % 65536
  let r := reg % 65536
  let fl := flags % 256
  if dev < I2C_NUMOF ∧ ptr ≠ 0 ∧ 0 < len ∧ len < 256 then
    if fl &&& (I2C_NOSTART ||| I2C_ADDR10 ||| I2C_NOSTOP) ≠ 0 then
      Outcome.ok (-eopnotsupp) s
    else
      let bB := busBase dev
      let s := pipOut s (bB + ADDRESS_I) a
      let s :=
        if fl &&& I2C_REG16 ≠ 0 then
          let s := { s with
            mem := storeBytes s.mem REG_STACK_ADDR [r >>> 8, r &&& 255] }
          pipOut s (bB + TXD_MAXCNT_I) 2
        else
          let s := { s with
            mem := storeBytes s.mem REG_STACK_ADDR [r % 256, r >>> 8] }
          pipOut s (bB + TXD_MAXCNT_I) 1
      let s := pipOut s (bB + TXD_PTR_I) REG_STACK_ADDR
      let s := pipOut s (bB + RXD_PTR_I) ptr
      let s := pipOut s (bB + RXD_MAXCNT_I) (len % 256)
      let s := pipOut s (bB + SHORTS_I)
        (TWIM_SHORTS_LASTTX_STARTRX_Msk ||| TWIM_SHORTS_LASTRX_STOP_Msk)
      let s := pipOut s (bB + TASKS_STARTTX_I) 1
      finish s dev TWIM_INTEN_STOPPED_Msk hw
  else Outcome.assertFail

/-- The bytes the hardware transmit DMA would fetch in a state: the
TXD.MAXCNT bytes of memory starting at TXD.PTR. -/
def wireTx (dev : Nat) (s : S) : List Nat :=
  bytesAt s.mem (s.regs (busBase dev + TXD_PTR_I))
    (s.regs (busBase dev + TXD_MAXCNT_I))

/-- Count of writes to a given register address in a trace. -/
def countW (t : List Ev) (a : Nat) : Nat :=
  t.countP (fun e => match e with | Ev.regW x _ => x = a | _ => false)

/-- Derived summary of the return code finish produces once its wait has
completed: -ENXIO on a latched error with the ANACK bit set, otherwise
-EIO on the DNACK bit, otherwise 0. -/
def finRet (hw : HwFinish) : Int :=
  if hw.error then
    if hw.errorsrc % 4294967296 &&& TWIM_ERRORSRC_ANACK_Msk ≠ 0 then -enxio
    else if hw.errorsrc % 4294967296 &&& TWIM_ERRORSRC_DNACK_Msk ≠ 0 then -eio
    else 0
  else 0

/-- Events finish may add to the trace on bus 0: register reads, the
single busy wait, and register writes confined to INTENSET, the two
event registers and ERRORSRC. -/
def finishEv : Ev → Bool
  | Ev.regW a _ => a = 4106 || a = 4108 || a = 4109 || a = 4110
  | Ev.regR _ _ => true
  | Ev.waitBusy _ => true
  | _ => false

/-- Recognizer for the blocking wait event. -/
def isWaitBusy : Ev → Bool
  | Ev.waitBusy _ => true
  | _ => false

lemma pollLoop_isSome_iff (mc : Nat) (l : List (Nat × Bool)) :
    (pollLoop mc l).isSome ↔ ∃ p ∈ l, p.1 = mc ∨ p.2 = true := by
  induction l with
  | nil => simp [pollLoop]
  | cons hd tl ih =>
    obtain ⟨a, e⟩ := hd
    by_cases ha : a = mc
    · subst ha
      simp [pollLoop]
    · cases e with
      | false => simp [pollLoop, ha, ih]
      | true => simp [pollLoop, ha]

lemma storeBytes_outside : ∀ (bs : List Nat) (m : Nat → Nat) (p q : Nat),
    (q < p ∨ p + bs.length ≤ q) → storeBytes m p bs q = m q := by
  intro bs
  induction bs with
  | nil => intro m p q h; rfl
  | cons b tl ih =>
    intro m p q h
    simp only [List.length_cons] at h
    have hq : q ≠ p := by omega
    have step := ih (fun a => if a = p then b else m a) (p + 1) q (by omega)
    simpa [storeBytes, hq] using step

lemma storeBytes_getD : ∀ (bs : List Nat) (m : Nat → Nat) (p i : Nat),
    i < bs.length → storeBytes m p bs (p + i) = bs.getD i 0 := by
  intro bs
  induction bs with
  | nil => intro m p i h; simp at h
  | cons b tl ih =>
    intro m p i h
    cases i with
    | zero =>
      have step : storeBytes (fun a => if a = p then b else m a) (p + 1) tl p =
          (fun a => if a = p then b else m a) p :=
        storeBytes_outside tl _ _ _ (Or.inl (by omega))
      simpa [storeBytes] using step
    | succ j =>
      have hj : j < tl.length := by simpa using h
      have step := ih (fun a => if a = p then b else m a) (p + 1) j hj
      simpa [storeBytes, Nat.add_assoc, Nat.add_comm 1 j] using step

lemma bytesAt_storeBytes (bs : List Nat) (m : Nat → Nat) (p : Nat) :
    bytesAt (storeBytes m p bs) p bs.length = bs := by
  apply List.ext_getElem
  · simp [bytesAt]
  · intro i h1 h2
    have hi : i < bs.length := by simpa [bytesAt] using h1
    have := storeBytes_getD bs m p i hi
    simp [bytesAt, this, List.getD_eq_getElem?_getD, List.getElem?_eq_getElem hi]

lemma bytesAt_congr (m1 m2 : Nat → Nat) (p len : Nat)
    (h : ∀ i, i < len → m1 (p + i) = m2 (p + i)) :
    bytesAt m1 p len = bytesAt m2 p len := by
  apply List.ext_getElem
  · simp [bytesAt]
  · intro i h1 h2
    have hi : i < len := by simpa [bytesAt] using h1
    simp [bytesAt, h i hi]

lemma bytesAt_storeBytes_outside (bs : List Nat) (m : Nat → Nat)
    (p q len : Nat) (h : q + len ≤ p ∨ p + bs.length ≤ q) :
    bytesAt (storeBytes m p bs) q len = bytesAt m q len := by
  apply bytesAt_congr
  intro i hi
  apply storeBytes_outside
  rcases h with h | h
  · left; omega
  · right; omega

attribute [simp] I2C_NUMOF I2C_ADDR10 I2C_REG16 I2C_NOSTOP I2C_NOSTART eio enxio eopnotsupp TWIM_ERRORSRC_ANACK_Msk TWIM_ERRORSRC_DNACK_Msk TWIM_INTEN_STOPPED_Msk TWIM_INTEN_ERROR_Msk TWIM_INTEN_LASTTX_Msk TWIM_SHORTS_LASTTX_STARTRX_Msk TWIM_SHORTS_LASTTX_STOP_Msk TWIM_SHORTS_LASTRX_STOP_Msk CPU_RAM_BASE CPU_RAM_SIZE TX_BUF_ADDR REG_STACK_ADDR ENABLE_I PSEL_SCL_I PSEL_SDA_I FREQUENCY_I ADDRESS_I TXD_PTR_I TXD_MAXCNT_I RXD_PTR_I RXD_MAXCNT_I SHORTS_I INTENSET_I INTENCLR_I EVENTS_STOPPED_I EVENTS_ERROR_I ERRORSRC_I TXD_AMOUNT_I TASKS_STARTTX_I TASKS_STARTRX_I TASKS_STOP_I busBase

/-- Derived summary of the ERRORSRC register contents finish leaves
behind: the ANACK bit is cleared if it was reported, else the DNACK bit
if it was reported; without a latched error event the register is left
unchanged. -/
def errsrcFinal (hw : HwFinish) : Nat :=
  let src := hw.errorsrc % 4294967296
  if hw.error then
    if src &&& TWIM_ERRORSRC_ANACK_Msk ≠ 0 then clearBits src TWIM_ERRORSRC_ANACK_Msk
    else if src &&& TWIM_ERRORSRC_DNACK_Msk ≠ 0 then clearBits src TWIM_ERRORSRC_DNACK_Msk
    else src
  else src

/-- Derived summary of the exact events finish appends to the trace on
bus 0. -/
def finTrace (flag : Nat) (hw : HwFinish) : List Ev :=
  let src := hw.errorsrc % 4294967296
  [Ev.regW 4106 (flag ||| 512), Ev.waitBusy 0,
   Ev.regR 4108 (if hw.stopped then 1 else 0)] ++
  (if hw.stopped then [Ev.regW 4108 0] else []) ++
  [Ev.regR 4109 (if hw.error then 1 else 0)] ++
  (if hw.error then
    [Ev.regW 4109 0, Ev.regR 4110 src] ++
    (if src &&& 2 ≠ 0 then [Ev.regW 4110 2]
     else [Ev.regR 4110 src] ++ (if src &&& 4 ≠ 0 then [Ev.regW 4110 4] else []))
   else [])

lemma finish0_retOf (s : S) (flag : Nat) (hw : HwFinish) :
    (finish s 0 flag hw).retOf =
      if flag &&& TWIM_INTEN_LASTTX_Msk ≠ 0 ∧ pollLoop (s.regs 4102) hw.poll = none
      then none else some (finRet hw) := by
  rcases hw with ⟨st, er, src, pl⟩
  by_cases hl : flag &&& 16777216 = 0
  · cases st <;> cases er <;>
      by_cases ha : src % 4294967296 &&& 2 = 0 <;>
      by_cases hd : src % 4294967296 &&& 4 = 0 <;>
      simp [finish, classify, finRet, pipOut, pipIn, hwDeliver, hl, ha, hd,
        Outcome.retOf]
  · cases hp : pollLoop (s.regs 4102) pl with
    | none =>
      cases st <;> cases er <;>
        simp [finish, classify, finRet, pipOut, pipIn, hwDeliver, hl, hp,
          Outcome.retOf]
    | some e =>
      cases st <;> cases er <;>
        by_cases ha : src % 4294967296 &&& 2 = 0 <;>
        by_cases hd : src % 4294967296 &&& 4 = 0 <;>
        simp [finish, classify, finRet, pipOut, pipIn, hwDeliver, hl, hp, ha, hd,
          Outcome.retOf]

lemma finish0_stOf (s : S) (flag : Nat) (hw : HwFinish) (s' : S)
    (h : (finish s 0 flag hw).stOf = some s') :
    s'.mem = s.mem ∧ s'.bufLocked = s.bufLocked ∧
    (∀ a, a ≠ 4106 → a ≠ 4108 → a ≠ 4109 → a ≠ 4110 → s'.regs a = s.regs a) ∧
    s'.regs 4108 = 0 ∧ s'.regs 4109 = 0 ∧ s'.regs 4110 = errsrcFinal hw ∧
    s'.trace = s.trace ++ finTrace flag hw := by
  rcases hw with ⟨st, er, src, pl⟩
  by_cases hl : flag &&& 16777216 = 0
  · cases st <;> cases er <;>
      by_cases ha : src % 4294967296 &&& 2 = 0 <;>
      by_cases hd : src % 4294967296 &&& 4 = 0 <;>
      (simp [finish, classify, pipOut, pipIn, hwDeliver, hl, ha, hd,
         Outcome.stOf] at h;
       subst h;
       refine ⟨rfl, rfl, fun a h1 h2 h3 h4 => by simp [hwDeliver, h1, h2, h3, h4], ?_, ?_, ?_, ?_⟩ <;>
       simp [hwDeliver, errsrcFinal, finTrace, ha, hd])
  · cases hp : pollLoop (s.regs 4102) pl with
    | none =>
      exfalso
      cases st <;> cases er <;>
        simp [finish, classify, pipOut, pipIn, hwDeliver, hl, hp, Outcome.stOf] at h
    | some e =>
      cases st <;> cases er <;>
        by_cases ha : src % 4294967296 &&& 2 = 0 <;>
        by_cases hd : src % 4294967296 &&& 4 = 0 <;>
        (simp [finish, classify, pipOut, pipIn, hwDeliver, hl, hp, ha, hd,
           Outcome.stOf] at h;
         subst h;
         refine ⟨rfl, rfl, fun a h1 h2 h3 h4 => by simp [hwDeliver, h1, h2, h3, h4], ?_, ?_, ?_, ?_⟩ <;>
         simp [hwDeliver, errsrcFinal, finTrace, ha, hd])

lemma finTrace_countW (flag : Nat) (hw : HwFinish) (a : Nat)
    (h1 : a ≠ 4106) (h2 : a ≠ 4108) (h3 : a ≠ 4109) (h4 : a ≠ 4110) :
    countW (finTrace flag hw) a = 0 := by
  rcases hw with ⟨st, er, src, pl⟩
  cases st <;> cases er <;>
    by_cases hx : src % 4294967296 &&& 2 = 0 <;>
    by_cases hy : src % 4294967296 &&& 4 = 0 <;>
    simp [finTrace, countW, hx, hy, Ne.symm h1, Ne.symm h2, Ne.symm h3, Ne.symm h4]

lemma finTrace_waitBusy (flag : Nat) (hw : HwFinish) :
    (finTrace flag hw).countP isWaitBusy = 1 := by
  rcases hw with ⟨st, er, src, pl⟩
  cases st <;> cases er <;>
    by_cases hx : src % 4294967296 &&& 2 = 0 <;>
    by_cases hy : src % 4294967296 &&& 4 = 0 <;>
    simp [finTrace, isWaitBusy, hx, hy]

lemma finTrace_no_lock (flag : Nat) (hw : HwFinish) :
    Ev.lockBuf ∉ finTrace flag hw ∧ Ev.unlockBuf ∉ finTrace flag hw := by
  rcases hw with ⟨st, er, src, pl⟩
  cases st <;> cases er <;>
    by_cases hx : src % 4294967296 &&& 2 = 0 <;>
    by_cases hy : src % 4294967296 &&& 4 = 0 <;>
    simp [finTrace, hx, hy]

lemma stOf_ok : ∀ (o : Outcome) (s' : S), o.stOf = some s' →
    ∃ r, o = Outcome.ok r s' := by
  intro o s' h
  cases o with
  | ok r s2 =>
    simp [Outcome.stOf] at h
    exact ⟨r, by rw [h]⟩
  | assertFail => simp [Outcome.stOf] at h
  | nullDeref => simp [Outcome.stOf] at h
  | hang => simp [Outcome.stOf] at h

lemma finish0_retOf_of_stOf (s : S) (flag : Nat) (hw : HwFinish) (s' : S)
    (h : (finish s 0 flag hw).stOf = some s') :
    (finish s 0 flag hw).retOf = some (finRet hw) := by
  obtain ⟨r, hr⟩ := stOf_ok _ _ h
  have h2 := finish0_retOf s flag hw
  rw [hr] at h2 ⊢
  simp only [Outcome.retOf] at h2 ⊢
  by_cases hc : flag &&& TWIM_INTEN_LASTTX_Msk ≠ 0 ∧
      pollLoop (s.regs 4102) hw.poll = none
  · rw [if_pos hc] at h2; exact absurd h2 (by simp)
  · rw [if_neg hc] at h2; exact h2

/-- Shared initial state for concrete witness instantiations: zeroed
memory and registers, staging buffer unlocked, empty trace. -/
def s0w : S := { mem := fun _ => 0, regs := fun _ => 0, bufLocked := false, trace := [] }

/-- Final state of a completed call, with a default for incomplete ones;
used to instantiate witnesses. -/
def stateOf (o : Outcome) (dflt : S) : S :=
  match o with
  | Outcome.ok _ s => s
  | _ => dflt

/-- C2: in the wait-and-classify routine, a latched error event is
cleared, and then: a set address-NACK bit of the error-source register
is cleared and the call reports -ENXIO; otherwise a set data-NACK bit is
cleared and the call reports -EIO; the address-NACK case takes priority
when both bits are set. -/
theorem C2_finish_error_classification (s : S) (flag : Nat) (hw : HwFinish)
    (s' : S) (herr : hw.error = true)
    (h : (finish s 0 flag hw).stOf = some s') :
    s'.regs (busBase 0 + EVENTS_ERROR_I) = 0 ∧
    (hw.errorsrc % 4294967296 &&& TWIM_ERRORSRC_ANACK_Msk ≠ 0 →
      (finish s 0 flag hw).retOf = some (-enxio) ∧
      s'.regs (busBase 0 + ERRORSRC_I) =
        clearBits (hw.errorsrc % 4294967296) TWIM_ERRORSRC_ANACK_Msk) ∧
    (hw.errorsrc % 4294967296 &&& TWIM_ERRORSRC_ANACK_Msk = 0 →
      hw.errorsrc % 4294967296 &&& TWIM_ERRORSRC_DNACK_Msk ≠ 0 →
      (finish s 0 flag hw).retOf = some (-eio) ∧
      s'.regs (busBase 0 + ERRORSRC_I) =
        clearBits (hw.errorsrc % 4294967296) TWIM_ERRORSRC_DNACK_Msk) := by
  obtain ⟨hmem, hbuf, hpres, h8, h9, h10, htr⟩ := finish0_stOf s flag hw s' h
  have hret := finish0_retOf_of_stOf s flag hw s' h
  refine ⟨by simpa using h9, ?_, ?_⟩
  · intro ha
    have ha2 : hw.errorsrc % 4294967296 &&& 2 ≠ 0 := by simpa using ha
    refine ⟨?_, ?_⟩
    · rw [hret]; simp [finRet, herr, ha2]
    · simpa [errsrcFinal, herr, ha2] using h10
  · intro ha hd
    have ha2 : hw.errorsrc % 4294967296 &&& 2 = 0 := by simpa using ha
    have hd2 : hw.errorsrc % 4294967296 &&& 4 ≠ 0 := by simpa using hd
    refine ⟨?_, ?_⟩
    · rw [hret]; simp [finRet, herr, ha2, hd2]
    · simpa [errsrcFinal, herr, ha2, hd2] using h10

/-- Witness for C2 at a concrete input: error latched with both NACK
bits set yields -ENXIO and clears only the address-NACK bit. -/
theorem C2_witness :
    (HwFinish.mk true true 6 []).error = true ∧
    (finish s0w 0 2 (HwFinish.mk true true 6 [])).stOf =
      some (stateOf (finish s0w 0 2 (HwFinish.mk true true 6 [])) s0w) ∧
    ((stateOf (finish s0w 0 2 (HwFinish.mk true true 6 [])) s0w).regs
      (busBase 0 + EVENTS_ERROR_I) = 0 ∧
     (6 % 4294967296 &&& TWIM_ERRORSRC_ANACK_Msk ≠ 0 →
      (finish s0w 0 2 (HwFinish.mk true true 6 [])).retOf = some (-enxio) ∧
      (stateOf (finish s0w 0 2 (HwFinish.mk true true 6 [])) s0w).regs
        (busBase 0 + ERRORSRC_I) =
        clearBits (6 % 4294967296) TWIM_ERRORSRC_ANACK_Msk) ∧
     (6 % 4294967296 &&& TWIM_ERRORSRC_ANACK_Msk = 0 →
      6 % 4294967296 &&& TWIM_ERRORSRC_DNACK_Msk ≠ 0 →
      (finish s0w 0 2 (HwFinish.mk true true 6 [])).retOf = some (-eio) ∧
      (stateOf (finish s0w 0 2 (HwFinish.mk true true 6 [])) s0w).regs
        (busBase 0 + ERRORSRC_I) =
        clearBits (6 % 4294967296) TWIM_ERRORSRC_DNACK_Msk)) :=
  ⟨rfl, rfl, C2_finish_error_classification s0w 2 (HwFinish.mk true true 6 [])
    (stateOf (finish s0w 0 2 (HwFinish.mk true true 6 [])) s0w) rfl rfl⟩

/-- C10: after the completion wait, if the error event is latched but
neither NACK bit of ERRORSRC is set, the routine clears the error event,
leaves ERRORSRC unchanged, and returns full success (0). -/
theorem C10_finish_unmodeled_error_success (s : S) (flag : Nat)
    (hw : HwFinish) (s' : S) (herr : hw.error = true)
    (hna : hw.errorsrc % 4294967296 &&& TWIM_ERRORSRC_ANACK_Msk = 0)
    (hnd : hw.errorsrc % 4294967296 &&& TWIM_ERRORSRC_DNACK_Msk = 0)
    (h : (finish s 0 flag hw).stOf = some s') :
    (finish s 0 flag hw).retOf = some 0 ∧
    s'.regs (busBase 0 + EVENTS_ERROR_I) = 0 ∧
    s'.regs (busBase 0 + ERRORSRC_I) = hw.errorsrc % 4294967296 := by
  obtain ⟨hmem, hbuf, hpres, h8, h9, h10, htr⟩ := finish0_stOf s flag hw s' h
  have hret := finish0_retOf_of_stOf s flag hw s' h
  have hna2 : hw.errorsrc % 4294967296 &&& 2 = 0 := by simpa using hna
  have hnd2 : hw.errorsrc % 4294967296 &&& 4 = 0 := by simpa using hnd
  refine ⟨?_, by simpa using h9, ?_⟩
  · rw [hret]; simp [finRet, herr, hna2, hnd2]
  · simpa [errsrcFinal, herr, hna2, hnd2] using h10

/-- Witness for C10 at a concrete input: error latched with only the
OVERRUN bit (1) in ERRORSRC yields success and an unchanged ERRORSRC. -/
theorem C10_witness :
    (HwFinish.mk true true 1 []).error = true ∧
    1 % 4294967296 &&& TWIM_ERRORSRC_ANACK_Msk = 0 ∧
    1 % 4294967296 &&& TWIM_ERRORSRC_DNACK_Msk = 0 ∧
    (finish s0w 0 2 (HwFinish.mk true true 1 [])).stOf =
      some (stateOf (finish s0w 0 2 (HwFinish.mk true true 1 [])) s0w) ∧
    ((finish s0w 0 2 (HwFinish.mk true true 1 [])).retOf = some 0 ∧
     (stateOf (finish s0w 0 2 (HwFinish.mk true true 1 [])) s0w).regs
       (busBase 0 + EVENTS_ERROR_I) = 0 ∧
     (stateOf (finish s0w 0 2 (HwFinish.mk true true 1 [])) s0w).regs
       (busBase 0 + ERRORSRC_I) = 1 % 4294967296) :=
  ⟨rfl, by decide, by decide, rfl,
    C10_finish_unmodeled_error_success s0w 2 (HwFinish.mk true true 1 [])
      (stateOf (finish s0w 0 2 (HwFinish.mk true true 1 [])) s0w)
      rfl (by decide) (by decide) rfl⟩

lemma land_mask_zero (f m b : Nat) (hmb : m &&& b = b) (h : f &&& m = 0) :
    f &&& b = 0 := by
  calc f &&& b = f &&& (m &&& b) := by rw [hmb]
    _ = (f &&& m) &&& b := (Nat.land_assoc f m b).symm
    _ = 0 := by rw [h]; simp

lemma finRet_ne_eopnotsupp (hw : HwFinish) : finRet hw ≠ -eopnotsupp := by
  unfold finRet
  split_ifs <;> decide

lemma direct0_ok (addr ptr len flags : Nat) (s : S) (hw : HwFinish)
    (hptr : ptr ≠ 0) (hlen0 : 0 < len) (hlen : len < 256)
    (hfl : flags % 256 &&& (I2C_NOSTART ||| I2C_ADDR10) = 0) :
    direct_i2c_write_bytes 0 addr ptr len flags s hw =
      finish (pipOut (pipOut (pipOut (pipOut (pipOut s 4100 (addr % 65536))
          4101 ptr) 4102 (len % 256)) 4105
            (if flags % 256 &&& I2C_NOSTOP = 0 then 512 else 0)) 4112 1) 0
        (if flags % 256 &&& I2C_NOSTOP = 0 then 2 else 16777216) hw := by
  have hfl9 : flags % 256 &&& 9 = 0 := by simpa using hfl
  by_cases hstop : flags % 256 &&& 4 = 0 <;>
    simp [direct_i2c_write_bytes, hptr, hlen0, hlen, hfl9, hstop]

lemma direct_retOf_no_reject (dev addr ptr len flags : Nat) (s : S)
    (hw : HwFinish)
    (hfl : flags % 256 &&& (I2C_NOSTART ||| I2C_ADDR10) = 0) :
    (direct_i2c_write_bytes dev addr ptr len flags s hw).retOf = none ∨
    (direct_i2c_write_bytes dev addr ptr len flags s hw).retOf =
      some (finRet hw) := by
  by_cases hdev : dev = 0
  · subst hdev
    by_cases hB : ptr ≠ 0 ∧ 0 < len ∧ len < 256
    · obtain ⟨h2, h3, h4⟩ := hB
      rw [direct0_ok addr ptr len flags s hw h2 h3 h4 hfl]
      rw [finish0_retOf]
      split_ifs <;> simp
    · have hno : ¬(0 < I2C_NUMOF ∧ ptr ≠ 0 ∧ 0 < len ∧ len < 256) :=
        fun hh => hB hh.2
      simp only [direct_i2c_write_bytes]
      rw [if_neg hno]
      left; rfl
  · have hno : ¬(dev < I2C_NUMOF ∧ ptr ≠ 0 ∧ 0 < len ∧ len < 256) := by
      intro hh
      exact hdev (Nat.lt_one_iff.mp (by simpa using hh.1))
    simp only [direct_i2c_write_bytes]
    rw [if_neg hno]
    left; rfl

lemma unlockAfter_retOf (o : Outcome) : (unlockAfter o).retOf = o.retOf := by
  cases o <;> rfl

lemma unlockAfter_stOf (o : Outcome) (s' : S)
    (h : (unlockAfter o).stOf = some s') :
    ∃ s1, o.stOf = some s1 ∧ s'.mem = s1.mem ∧ s'.regs = s1.regs ∧
      s'.bufLocked = false ∧ s'.trace = s1.trace ++ [Ev.unlockBuf] := by
  cases o with
  | ok r s1 =>
    refine ⟨s1, rfl, ?_⟩
    simp [unlockAfter, Outcome.stOf] at h
    subst h
    simp
  | assertFail => simp [unlockAfter, Outcome.stOf] at h
  | nullDeref => simp [unlockAfter, Outcome.stOf] at h
  | hang => simp [unlockAfter, Outcome.stOf] at h

lemma direct_retOf_ne_eopnotsupp (dev addr ptr len flags : Nat) (s : S)
    (hw : HwFinish)
    (hfl : flags % 256 &&& (I2C_NOSTART ||| I2C_ADDR10) = 0) :
    (direct_i2c_write_bytes dev addr ptr len flags s hw).retOf ≠
      some (-eopnotsupp) := by
  have hne : finRet hw ≠ -95 := by simpa using finRet_ne_eopnotsupp hw
  rcases direct_retOf_no_reject dev addr ptr len flags s hw hfl with h | h <;>
    rw [h] <;> simp [hne]

/-- Hardware oracle for a successful suppressed-stop write of three
bytes: no stop event, no error, and the busy-poll observes the
transmitted count reaching 3. -/
def hwC1 : HwFinish := { stopped := false, error := false, errorsrc := 0, poll := [(3, false)] }

/-- C1 counterexample: write_with_register on bus 0 with only the
suppress-stop flag set is not rejected — the transfer runs and returns
success (0), not the not-supported error, refuting the claim that every
operation other than plain write rejects suppress-stop. -/
theorem C1_counterexample :
    (4 : Nat) &&& I2C_NOSTOP ≠ 0 ∧
    (i2c_write_regs 0 80 16 768 2 4 s0w hwC1).retOf = some 0 ∧
    some (0 : Int) ≠ some (-eopnotsupp) :=
  ⟨by decide, rfl, by decide⟩

/-- C1 (amended): the suppress-stop flag is accepted by both write
operations — plain write and write_with_register never return the
not-supported error when suppress-start and 10-bit-address are clear,
whatever the suppress-stop flag — while each read operation returns the
not-supported error whenever suppress-stop is set, for every bus,
address, buffer and length satisfying the asserted preconditions. -/
theorem C1_amended_suppress_stop (dev addr reg ptr len flags : Nat) (s : S)
    (hw : HwFinish) (hdev : dev < I2C_NUMOF) (hptr : ptr ≠ 0)
    (hlen0 : 0 < len) (hlen : len < 256) (hflags : flags < 256)
    (hstop : flags &&& I2C_NOSTOP ≠ 0) :
    (i2c_read_bytes dev addr ptr len flags s hw).retOf = some (-eopnotsupp) ∧
    (i2c_read_regs dev addr reg ptr len flags s hw).retOf = some (-eopnotsupp) ∧
    (flags &&& (I2C_NOSTART ||| I2C_ADDR10) = 0 →
      (i2c_write_bytes dev addr ptr len flags s hw).retOf ≠ some (-eopnotsupp) ∧
      (i2c_write_regs dev addr reg ptr len flags s hw).retOf ≠ some (-eopnotsupp)) := by
  have hdev0 : dev = 0 := Nat.lt_one_iff.mp (by simpa using hdev)
  subst hdev0
  have hm : flags % 256 = flags := Nat.mod_eq_of_lt hflags
  have h4 : flags &&& 4 ≠ 0 := by simpa using hstop
  have h13 : flags &&& 13 ≠ 0 := by
    intro hc
    exact h4 (land_mask_zero flags 13 4 (by decide) hc)
  refine ⟨?_, ?_, ?_⟩
  · simp [i2c_read_bytes, hm, hptr, hlen0, hlen, h13, Outcome.retOf]
  · simp [i2c_read_regs, hm, hptr, hlen0, hlen, h13, Outcome.retOf]
  · intro hfl
    have hfl' : flags % 256 &&& (I2C_NOSTART ||| I2C_ADDR10) = 0 := by
      rw [hm]; exact hfl
    constructor
    · by_cases hram : CPU_RAM_BASE ≤ ptr ∧ ptr < CPU_RAM_BASE + CPU_RAM_SIZE
      · have hbody : i2c_write_bytes 0 addr ptr len flags s hw =
            direct_i2c_write_bytes 0 addr ptr len flags s hw := by
          simp only [i2c_write_bytes]
          rw [if_pos hram]
        rw [hbody]
        exact direct_retOf_ne_eopnotsupp 0 addr ptr len flags s hw hfl'
      · have hbody : i2c_write_bytes 0 addr ptr len flags s hw =
            unlockAfter (direct_i2c_write_bytes 0 addr TX_BUF_ADDR len flags
              { s with
                mem := storeBytes s.mem TX_BUF_ADDR (bytesAt s.mem ptr len),
                bufLocked := true,
                trace := s.trace ++ [Ev.lockBuf] ++ [Ev.copy TX_BUF_ADDR ptr len] }
              hw) := by
          simp only [i2c_write_bytes]
          rw [if_neg hram, if_pos ⟨hlen0, hlen⟩, if_neg hptr]
        rw [hbody, unlockAfter_retOf]
        exact direct_retOf_ne_eopnotsupp 0 addr TX_BUF_ADDR len flags _ hw hfl'
    · by_cases hA : 0 < I2C_NUMOF ∧ ptr ≠ 0 ∧ 0 < len ∧ len < 253
      · simp only [i2c_write_regs]
        rw [if_pos hA, if_neg (not_ne_iff.mpr hfl'), unlockAfter_retOf]
        exact direct_retOf_ne_eopnotsupp 0 addr TX_BUF_ADDR _ flags _ hw hfl'
      · have hbody : i2c_write_regs 0 addr reg ptr len flags s hw =
            Outcome.assertFail := by
          simp only [i2c_write_regs]
          rw [if_neg hA]
        rw [hbody]
        simp [Outcome.retOf]

/-- Witness for C1 (amended) at a concrete input: bus 0, flags with only
suppress-stop set. -/
theorem C1_amended_witness :
    (0 < I2C_NUMOF ∧ (768 : Nat) ≠ 0 ∧ 0 < 2 ∧ 2 < 256 ∧ (4 : Nat) < 256 ∧
      (4 : Nat) &&& I2C_NOSTOP ≠ 0) ∧
    ((i2c_read_bytes 0 80 768 2 4 s0w hwC1).retOf = some (-eopnotsupp) ∧
     (i2c_read_regs 0 80 16 768 2 4 s0w hwC1).retOf = some (-eopnotsupp) ∧
     ((4 : Nat) &&& (I2C_NOSTART ||| I2C_ADDR10) = 0 →
       (i2c_write_bytes 0 80 768 2 4 s0w hwC1).retOf ≠ some (-eopnotsupp) ∧
       (i2c_write_regs 0 80 16 768 2 4 s0w hwC1).retOf ≠ some (-eopnotsupp))) :=
  ⟨by decide,
   C1_amended_suppress_stop 0 80 16 768 2 4 s0w hwC1 (by decide) (by decide)
     (by decide) (by decide) (by decide) (by decide)⟩

/-- Initial state for the C3 counterexample: one payload byte 171 at
address 768 (outside the DMA-addressable RAM range). -/
def sC3 : S :=
  { mem := fun a => if a = 768 then 171 else 0,
    regs := fun _ => 0, bufLocked := false, trace := [] }

/-- C3 counterexample: a plain write from a non-DMA-addressable buffer
with suppress-start set is rejected with the not-supported error, yet it
acquired the transaction-buffer lock and copied the caller's byte into
the shared buffer before the flag check — the rejected call is not free
of side effects. -/
theorem C3_counterexample :
    (8 : Nat) &&& (I2C_NOSTART ||| I2C_ADDR10) ≠ 0 ∧
    (i2c_write_bytes 0 80 768 1 8 sC3 hwC1).retOf = some (-eopnotsupp) ∧
    Ev.lockBuf ∈ (stateOf (i2c_write_bytes 0 80 768 1 8 sC3 hwC1) s0w).trace ∧
    (stateOf (i2c_write_bytes 0 80 768 1 8 sC3 hwC1) s0w).mem TX_BUF_ADDR = 171 ∧
    sC3.mem TX_BUF_ADDR = 0 :=
  ⟨by decide, rfl, by decide, rfl, rfl⟩

/-- C3 (amended): every call with suppress-start or 10-bit-address set
returns not-supported before any hardware register is read or written;
the register-prefixed operations, the reads and the direct write path
are rejected with no side effect at all (the state is returned
unchanged), but a plain write whose source lies outside the
DMA-addressable range acquires the transaction-buffer lock and copies
the data into the shared buffer before the flag check rejects the call
(releasing the lock again before returning). -/
theorem C3_amended_flag_rejection (dev addr reg ptr len flags : Nat) (s : S)
    (hw : HwFinish) (hdev : dev < I2C_NUMOF) (hptr : ptr ≠ 0) (hlen0 : 0 < len)
    (hlen : len < 256) (hflags : flags < 256)
    (hrej : flags &&& (I2C_NOSTART ||| I2C_ADDR10) ≠ 0) :
    i2c_read_bytes dev addr ptr len flags s hw = Outcome.ok (-eopnotsupp) s ∧
    i2c_read_regs dev addr reg ptr len flags s hw = Outcome.ok (-eopnotsupp) s ∧
    (len < 253 →
      i2c_write_regs dev addr reg ptr len flags s hw = Outcome.ok (-eopnotsupp) s) ∧
    direct_i2c_write_bytes dev addr ptr len flags s hw = Outcome.ok (-eopnotsupp) s ∧
    (CPU_RAM_BASE ≤ ptr ∧ ptr < CPU_RAM_BASE + CPU_RAM_SIZE →
      i2c_write_bytes dev addr ptr len flags s hw = Outcome.ok (-eopnotsupp) s) ∧
    (¬(CPU_RAM_BASE ≤ ptr ∧ ptr < CPU_RAM_BASE + CPU_RAM_SIZE) →
      i2c_write_bytes dev addr ptr len flags s hw =
        Outcome.ok (-eopnotsupp)
          { s with
            mem := storeBytes s.mem TX_BUF_ADDR (bytesAt s.mem ptr len),
            bufLocked := false,
            trace := s.trace ++
              [Ev.lockBuf, Ev.copy TX_BUF_ADDR ptr len, Ev.unlockBuf] }) := by
  have hdev0 : dev = 0 := Nat.lt_one_iff.mp (by simpa using hdev)
  subst hdev0
  have hm : flags % 256 = flags := Nat.mod_eq_of_lt hflags
  have h9 : flags &&& 9 ≠ 0 := by simpa using hrej
  have h13 : flags &&& 13 ≠ 0 := by
    intro hc
    exact h9 (land_mask_zero flags 13 9 (by decide) hc)
  refine ⟨?_, ?_, ?_, ?_, ?_, ?_⟩
  · simp [i2c_read_bytes, hm, hptr, hlen0, hlen, h13]
  · simp [i2c_read_regs, hm, hptr, hlen0, hlen, h13]
  · intro hlen253
    simp [i2c_write_regs, hm, hptr, hlen0, hlen253, h9]
  · simp [direct_i2c_write_bytes, hm, hptr, hlen0, hlen, h9]
  · intro hram
    have hbody : i2c_write_bytes 0 addr ptr len flags s hw =
        direct_i2c_write_bytes 0 addr ptr len flags s hw := by
      simp only [i2c_write_bytes]
      rw [if_pos hram]
    rw [hbody]
    simp [direct_i2c_write_bytes, hm, hptr, hlen0, hlen, h9]
  · intro hram
    have hbody : i2c_write_bytes 0 addr ptr len flags s hw =
        unlockAfter (direct_i2c_write_bytes 0 addr TX_BUF_ADDR len flags
          { s with
            mem := storeBytes s.mem TX_BUF_ADDR (bytesAt s.mem ptr len),
            bufLocked := true,
            trace := s.trace ++ [Ev.lockBuf] ++ [Ev.copy TX_BUF_ADDR ptr len] }
          hw) := by
      simp only [i2c_write_bytes]
      rw [if_neg hram, if_pos ⟨hlen0, hlen⟩, if_neg hptr]
    rw [hbody]
    simp [direct_i2c_write_bytes, unlockAfter, hm, hlen0, hlen, h9]

/-- Witness for C3 (amended) at a concrete input: flags with
suppress-start set reject the read with an unchanged state. -/
theorem C3_amended_witness :
    (0 < I2C_NUMOF ∧ (768 : Nat) ≠ 0 ∧ 0 < 2 ∧ 2 < 256 ∧ (8 : Nat) < 256 ∧
      (8 : Nat) &&& (I2C_NOSTART ||| I2C_ADDR10) ≠ 0) ∧
    i2c_read_bytes 0 80 768 2 8 s0w hwC1 = Outcome.ok (-eopnotsupp) s0w :=
  ⟨by decide,
   (C3_amended_flag_rejection 0 80 16 768 2 8 s0w hwC1 (by decide) (by decide)
     (by decide) (by decide) (by decide) (by decide)).1⟩

/-- C9 counterexample: a null data pointer passed to the plain write
lies outside the DMA-addressable RAM range, so the call takes the
staging path, whose assertion checks only the length; the memcpy then
dereferences the null pointer before any assertion mentions it — the
call does not fail a fatal assertion. -/
theorem C9_counterexample :
    i2c_write_bytes 0 80 0 1 0 s0w hwC1 = Outcome.nullDeref ∧
    Outcome.nullDeref ≠ Outcome.assertFail :=
  ⟨rfl, fun h => Outcome.noConfusion h⟩

/-- C9 (amended): caller-contract violations fail fatal assertions — an
out-of-range bus id, a zero length, a length at or above the limit (256,
or 253 for register-prefixed writes) and a null pointer all assert, in
every operation — except that a null pointer passed to the plain write
takes the staging path and is dereferenced by the copy without any
assertion ever checking it. -/
theorem C9_amended_contract_assertions (dev addr reg ptr len flags : Nat)
    (s : S) (hw : HwFinish) :
    (I2C_NUMOF ≤ dev →
      i2c_read_bytes dev addr ptr len flags s hw = Outcome.assertFail ∧
      i2c_read_regs dev addr reg ptr len flags s hw = Outcome.assertFail ∧
      i2c_write_regs dev addr reg ptr len flags s hw = Outcome.assertFail ∧
      direct_i2c_write_bytes dev addr ptr len flags s hw = Outcome.assertFail ∧
      (ptr ≠ 0 → i2c_write_bytes dev addr ptr len flags s hw = Outcome.assertFail)) ∧
    (len = 0 →
      i2c_read_bytes dev addr ptr len flags s hw = Outcome.assertFail ∧
      i2c_read_regs dev addr reg ptr len flags s hw = Outcome.assertFail ∧
      i2c_write_regs dev addr reg ptr len flags s hw = Outcome.assertFail ∧
      direct_i2c_write_bytes dev addr ptr len flags s hw = Outcome.assertFail ∧
      i2c_write_bytes dev addr ptr len flags s hw = Outcome.assertFail) ∧
    (256 ≤ len →
      i2c_read_bytes dev addr ptr len flags s hw = Outcome.assertFail ∧
      i2c_read_regs dev addr reg ptr len flags s hw = Outcome.assertFail ∧
      direct_i2c_write_bytes dev addr ptr len flags s hw = Outcome.assertFail ∧
      i2c_write_bytes dev addr ptr len flags s hw = Outcome.assertFail) ∧
    (253 ≤ len →
      i2c_write_regs dev addr reg ptr len flags s hw = Outcome.assertFail) ∧
    (ptr = 0 →
      i2c_read_bytes dev addr ptr len flags s hw = Outcome.assertFail ∧
      i2c_read_regs dev addr reg ptr len flags s hw = Outcome.assertFail ∧
      i2c_write_regs dev addr reg ptr len flags s hw = Outcome.assertFail ∧
      direct_i2c_write_bytes dev addr ptr len flags s hw = Outcome.assertFail ∧
      (0 < len → len < 256 →
        i2c_write_bytes dev addr ptr len flags s hw = Outcome.nullDeref)) := by
  refine ⟨?_, ?_, ?_, ?_, ?_⟩
  · intro hdev
    have hd0 : dev ≠ 0 := by
      intro h
      rw [h] at hdev
      simp [I2C_NUMOF] at hdev
    have hnd : ¬ dev < 1 := by
      intro h
      exact hd0 (Nat.lt_one_iff.mp h)
    refine ⟨?_, ?_, ?_, ?_, ?_⟩
    · simp [i2c_read_bytes, hd0, hnd]
    · simp [i2c_read_regs, hd0, hnd]
    · simp [i2c_write_regs, hd0, hnd]
    · simp [direct_i2c_write_bytes, hd0, hnd]
    · intro hptr0
      by_cases hram : CPU_RAM_BASE ≤ ptr ∧ ptr < CPU_RAM_BASE + CPU_RAM_SIZE
      · have hbody : i2c_write_bytes dev addr ptr len flags s hw =
            direct_i2c_write_bytes dev addr ptr len flags s hw := by
          simp only [i2c_write_bytes]
          rw [if_pos hram]
        rw [hbody]
        simp [direct_i2c_write_bytes, hd0, hnd]
      · by_cases hlen2 : 0 < len ∧ len < 256
        · simp only [i2c_write_bytes]
          rw [if_neg hram, if_pos hlen2, if_neg hptr0]
          simp [direct_i2c_write_bytes, unlockAfter, hd0, hnd]
        · simp only [i2c_write_bytes]
          rw [if_neg hram, if_neg hlen2]
  · intro hlen
    subst hlen
    refine ⟨?_, ?_, ?_, ?_, ?_⟩
    · simp [i2c_read_bytes]
    · simp [i2c_read_regs]
    · simp [i2c_write_regs]
    · simp [direct_i2c_write_bytes]
    · by_cases hram : CPU_RAM_BASE ≤ ptr ∧ ptr < CPU_RAM_BASE + CPU_RAM_SIZE
      · have hbody : i2c_write_bytes dev addr ptr 0 flags s hw =
            direct_i2c_write_bytes dev addr ptr 0 flags s hw := by
          simp only [i2c_write_bytes]
          rw [if_pos hram]
        rw [hbody]
        simp [direct_i2c_write_bytes]
      · simp only [i2c_write_bytes]
        rw [if_neg hram, if_neg (by simp)]
  · intro hlen
    have hno : ¬ len < 256 := by omega
    refine ⟨?_, ?_, ?_, ?_⟩
    · simp [i2c_read_bytes, hno]
    · simp [i2c_read_regs, hno]
    · simp [direct_i2c_write_bytes, hno]
    · by_cases hram : CPU_RAM_BASE ≤ ptr ∧ ptr < CPU_RAM_BASE + CPU_RAM_SIZE
      · have hbody : i2c_write_bytes dev addr ptr len flags s hw =
            direct_i2c_write_bytes dev addr ptr len flags s hw := by
          simp only [i2c_write_bytes]
          rw [if_pos hram]
        rw [hbody]
        simp [direct_i2c_write_bytes, hno]
      · simp only [i2c_write_bytes]
        rw [if_neg hram, if_neg (by simp [hno])]
  · intro hlen
    have hno : ¬ len < 253 := by omega
    simp [i2c_write_regs, hno]
  · intro hptr0
    subst hptr0
    refine ⟨?_, ?_, ?_, ?_, ?_⟩
    · simp [i2c_read_bytes]
    · simp [i2c_read_regs]
    · simp [i2c_write_regs]
    · simp [direct_i2c_write_bytes]
    · intro hl0 hl256
      have hram : ¬(CPU_RAM_BASE ≤ 0 ∧ (0 : Nat) < CPU_RAM_BASE + CPU_RAM_SIZE) := by
        simp [CPU_RAM_BASE]
      simp only [i2c_write_bytes]
      rw [if_neg hram, if_pos ⟨hl0, hl256⟩]
      simp

/-- Witness for C9 (amended) at a concrete input: bus id 1 is out of
range on this one-bus deployment and every operation asserts. -/
theorem C9_amended_witness :
    I2C_NUMOF ≤ 1 ∧ (768 : Nat) ≠ 0 ∧
    (i2c_read_bytes 1 80 768 2 0 s0w hwC1 = Outcome.assertFail ∧
     i2c_read_regs 1 80 16 768 2 0 s0w hwC1 = Outcome.assertFail ∧
     i2c_write_regs 1 80 16 768 2 0 s0w hwC1 = Outcome.assertFail ∧
     direct_i2c_write_bytes 1 80 768 2 0 s0w hwC1 = Outcome.assertFail ∧
     ((768 : Nat) ≠ 0 → i2c_write_bytes 1 80 768 2 0 s0w hwC1 = Outcome.assertFail)) :=
  ⟨by decide, by decide,
   (C9_amended_contract_assertions 1 80 16 768 2 0 s0w hwC1).1 (by decide)⟩

lemma finish0_hang_iff (s : S) (flag : Nat) (hw : HwFinish) :
    finish s 0 flag hw = Outcome.hang ↔
      (flag &&& TWIM_INTEN_LASTTX_Msk ≠ 0 ∧
        pollLoop (s.regs 4102) hw.poll = none) := by
  constructor
  · intro h
    have hr := finish0_retOf s flag hw
    rw [h] at hr
    simp only [Outcome.retOf] at hr
    by_cases hc : flag &&& TWIM_INTEN_LASTTX_Msk ≠ 0 ∧
        pollLoop (s.regs 4102) hw.poll = none
    · exact hc
    · rw [if_neg hc] at hr
      exact absurd hr (by simp)
  · rintro ⟨h1, h2⟩
    have h1' : flag &&& 16777216 ≠ 0 := by simpa using h1
    rcases hw with ⟨st, er, src, pl⟩
    simp only [] at h2
    cases st <;> simp [finish, pipOut, pipIn, hwDeliver, h1', h2]

/-- C6: for every accepted plain write on the direct path, a clear
suppress-stop flag arms the LASTTX-to-STOP short and waits for the stop
event (STOPPED unmasked); a set suppress-stop flag arms no short (SHORTS
written 0) and waits for the last-transmitted condition, after which the
busy poll returns only when the transmitted count reaches the requested
count or the error event is latched, and spins forever otherwise. -/
theorem C6_write_stop_modes (addr ptr len flags : Nat) (s : S) (hw : HwFinish)
    (hptr : ptr ≠ 0) (hlen0 : 0 < len) (hlen : len < 256) (hflags : flags < 256)
    (hfl : flags &&& (I2C_NOSTART ||| I2C_ADDR10) = 0) :
    (flags &&& I2C_NOSTOP = 0 →
      ∀ s', (direct_i2c_write_bytes 0 addr ptr len flags s hw).stOf = some s' →
        s'.regs (busBase 0 + SHORTS_I) = TWIM_SHORTS_LASTTX_STOP_Msk ∧
        Ev.regW (busBase 0 + INTENSET_I)
          (TWIM_INTEN_STOPPED_Msk ||| TWIM_INTEN_ERROR_Msk) ∈ s'.trace) ∧
    (flags &&& I2C_NOSTOP ≠ 0 →
      (direct_i2c_write_bytes 0 addr ptr len flags s hw = Outcome.hang ↔
        pollLoop len hw.poll = none) ∧
      ((pollLoop len hw.poll).isSome ↔ ∃ p ∈ hw.poll, p.1 = len ∨ p.2 = true) ∧
      (∀ s', (direct_i2c_write_bytes 0 addr ptr len flags s hw).stOf = some s' →
        s'.regs (busBase 0 + SHORTS_I) = 0 ∧
        Ev.regW (busBase 0 + INTENSET_I)
          (TWIM_INTEN_LASTTX_Msk ||| TWIM_INTEN_ERROR_Msk) ∈ s'.trace)) := by
  have hm : flags % 256 = flags := Nat.mod_eq_of_lt hflags
  have hfl' : flags % 256 &&& (I2C_NOSTART ||| I2C_ADDR10) = 0 := by
    rw [hm]; exact hfl
  have hml : len % 256 = len := Nat.mod_eq_of_lt hlen
  rw [direct0_ok addr ptr len flags s hw hptr hlen0 hlen hfl']
  constructor
  · intro hstop
    have hstop' : flags % 256 &&& I2C_NOSTOP = 0 := by rw [hm]; exact hstop
    rw [if_pos hstop', if_pos hstop']
    intro s' h
    obtain ⟨hmem, hbuf, hpres, h8, h9, h10, htr⟩ := finish0_stOf _ _ _ _ h
    constructor
    · rw [show busBase 0 + SHORTS_I = 4105 by simp]
      rw [hpres 4105 (by omega) (by omega) (by omega) (by omega)]
      simp [pipOut]
    · rw [htr]
      simp [finTrace]
  · intro hstop
    have hstop' : ¬ flags % 256 &&& I2C_NOSTOP = 0 := by rw [hm]; exact hstop
    rw [if_neg hstop', if_neg hstop']
    have hmax : (pipOut (pipOut (pipOut (pipOut (pipOut s 4100 (addr % 65536))
        4101 ptr) 4102 (len % 256)) 4105 0) 4112 1).regs 4102 = len := by
      simp [pipOut, hml]
      omega
    refine ⟨?_, ?_, ?_⟩
    · rw [finish0_hang_iff, hmax]
      simp
    · rw [pollLoop_isSome_iff]
    · intro s' h
      obtain ⟨hmem, hbuf, hpres, h8, h9, h10, htr⟩ := finish0_stOf _ _ _ _ h
      constructor
      · rw [show busBase 0 + SHORTS_I = 4105 by simp]
        rw [hpres 4105 (by omega) (by omega) (by omega) (by omega)]
        simp [pipOut]
      · rw [htr]
        simp [finTrace]

/-- Witness for C6 at a concrete input: suppress-stop set, three poll
samples, the second reaching the requested count. -/
theorem C6_witness :
    ((768 : Nat) ≠ 0 ∧ 0 < 2 ∧ 2 < 256 ∧ (4 : Nat) < 256 ∧
      (4 : Nat) &&& (I2C_NOSTART ||| I2C_ADDR10) = 0 ∧
      (4 : Nat) &&& I2C_NOSTOP ≠ 0) ∧
    ((direct_i2c_write_bytes 0 80 768 2 4 s0w
        (HwFinish.mk false false 0 [(1, false), (2, false)]) = Outcome.hang ↔
      pollLoop 2 (HwFinish.mk false false 0 [(1, false), (2, false)]).poll = none) ∧
     ((pollLoop 2 (HwFinish.mk false false 0 [(1, false), (2, false)]).poll).isSome ↔
       ∃ p ∈ (HwFinish.mk false false 0 [(1, false), (2, false)]).poll,
         p.1 = 2 ∨ p.2 = true) ∧
     (∀ s', (direct_i2c_write_bytes 0 80 768 2 4 s0w
         (HwFinish.mk false false 0 [(1, false), (2, false)])).stOf = some s' →
       s'.regs (busBase 0 + SHORTS_I) = 0 ∧
       Ev.regW (busBase 0 + INTENSET_I)
         (TWIM_INTEN_LASTTX_Msk ||| TWIM_INTEN_ERROR_Msk) ∈ s'.trace)) :=
  ⟨by decide,
   (C6_write_stop_modes 80 768 2 4 s0w
     (HwFinish.mk false false 0 [(1, false), (2, false)]) (by decide) (by decide)
     (by decide) (by decide) (by decide)).2 (by decide)⟩

lemma countW_append (t1 t2 : List Ev) (a : Nat) :
    countW (t1 ++ t2) a = countW t1 a + countW t2 a := by
  simp [countW, List.countP_append]

/-- C7: every accepted register-prefixed read is one single transfer:
it programs the selector transmit length (2 bytes under REG16, else 1)
and the len-byte receive, arms exactly the last-transmitted-to-start-
receive and last-received-to-stop shorts, triggers exactly one
start-transmit task, never triggers start-receive or stop tasks
explicitly, and performs a single blocking wait for the stop event. -/
theorem C7_read_regs_single_transaction (addr reg ptr len flags : Nat)
    (s : S) (hw : HwFinish) (hptr : ptr ≠ 0) (hlen0 : 0 < len)
    (hlen : len < 256) (hflags : flags < 256)
    (hfl : flags &&& (I2C_NOSTART ||| I2C_ADDR10 ||| I2C_NOSTOP) = 0)
    (htr0 : s.trace = []) :
    ∀ s', (i2c_read_regs 0 addr reg ptr len flags s hw).stOf = some s' →
      s'.regs (busBase 0 + SHORTS_I) =
        (TWIM_SHORTS_LASTTX_STARTRX_Msk ||| TWIM_SHORTS_LASTRX_STOP_Msk) ∧
      s'.regs (busBase 0 + TXD_MAXCNT_I) =
        (if flags &&& I2C_REG16 ≠ 0 then 2 else 1) ∧
      s'.regs (busBase 0 + RXD_MAXCNT_I) = len ∧
      countW s'.trace (busBase 0 + TASKS_STARTTX_I) = 1 ∧
      countW s'.trace (busBase 0 + TASKS_STARTRX_I) = 0 ∧
      countW s'.trace (busBase 0 + TASKS_STOP_I) = 0 ∧
      s'.trace.countP isWaitBusy = 1 ∧
      Ev.regW (busBase 0 + INTENSET_I)
        (TWIM_INTEN_STOPPED_Msk ||| TWIM_INTEN_ERROR_Msk) ∈ s'.trace := by
  have hm : flags % 256 = flags := Nat.mod_eq_of_lt hflags
  have hml : len % 256 = len := Nat.mod_eq_of_lt hlen
  have h13 : flags % 256 &&& (I2C_NOSTART ||| I2C_ADDR10 ||| I2C_NOSTOP) = 0 := by
    rw [hm]; exact hfl
  intro s' h
  simp only [i2c_read_regs] at h
  rw [if_pos ⟨by decide, hptr, hlen0, hlen⟩, if_neg (not_ne_iff.mpr h13)] at h
  by_cases hreg : flags % 256 &&& I2C_REG16 = 0
  · rw [if_neg (not_ne_iff.mpr hreg)] at h
    obtain ⟨hmem, hbuf, hpres, h8, h9, h10, htr⟩ := finish0_stOf _ _ _ _ h
    have hreg' : ¬ flags &&& I2C_REG16 ≠ 0 := by
      rw [hm] at hreg; simpa using hreg
    refine ⟨?_, ?_, ?_, ?_, ?_, ?_, ?_, ?_⟩
    · rw [show busBase 0 + SHORTS_I = 4105 by simp]
      rw [hpres 4105 (by omega) (by omega) (by omega) (by omega)]
      simp [pipOut]
    · rw [show busBase 0 + TXD_MAXCNT_I = 4102 by simp]
      rw [hpres 4102 (by omega) (by omega) (by omega) (by omega)]
      rw [if_neg hreg']
      simp [pipOut]
    · rw [show busBase 0 + RXD_MAXCNT_I = 4104 by simp]
      rw [hpres 4104 (by omega) (by omega) (by omega) (by omega)]
      simp [pipOut, hml]
      omega
    · rw [htr, countW_append, finTrace_countW _ _ _ (by simp) (by simp) (by simp) (by simp)]
      simp [pipOut, countW, htr0]
    · rw [htr, countW_append, finTrace_countW _ _ _ (by simp) (by simp) (by simp) (by simp)]
      simp [pipOut, countW, htr0]
    · rw [htr, countW_append, finTrace_countW _ _ _ (by simp) (by simp) (by simp) (by simp)]
      simp [pipOut, countW, htr0]
    · rw [htr, List.countP_append, finTrace_waitBusy]
      simp [pipOut, isWaitBusy, htr0]
    · rw [htr]
      simp [finTrace]
  · rw [if_pos hreg] at h
    obtain ⟨hmem, hbuf, hpres, h8, h9, h10, htr⟩ := finish0_stOf _ _ _ _ h
    have hreg' : flags &&& I2C_REG16 ≠ 0 := by
      rw [hm] at hreg; simpa using hreg
    refine ⟨?_, ?_, ?_, ?_, ?_, ?_, ?_, ?_⟩
    · rw [show busBase 0 + SHORTS_I = 4105 by simp]
      rw [hpres 4105 (by omega) (by omega) (by omega) (by omega)]
      simp [pipOut]
    · rw [show busBase 0 + TXD_MAXCNT_I = 4102 by simp]
      rw [hpres 4102 (by omega) (by omega) (by omega) (by omega)]
      rw [if_pos hreg']
      simp [pipOut]
    · rw [show busBase 0 + RXD_MAXCNT_I = 4104 by simp]
      rw [hpres 4104 (by omega) (by omega) (by omega) (by omega)]
      simp [pipOut, hml]
      omega
    · rw [htr, countW_append, finTrace_countW _ _ _ (by simp) (by simp) (by simp) (by simp)]
      simp [pipOut, countW, htr0]
    · rw [htr, countW_append, finTrace_countW _ _ _ (by simp) (by simp) (by simp) (by simp)]
      simp [pipOut, countW, htr0]
    · rw [htr, countW_append, finTrace_countW _ _ _ (by simp) (by simp) (by simp) (by simp)]
      simp [pipOut, countW, htr0]
    · rw [htr, List.countP_append, finTrace_waitBusy]
      simp [pipOut, isWaitBusy, htr0]
    · rw [htr]
      simp [finTrace]

/-- Hardware oracle for a successfully stopped transfer: stop event
latched, no error. -/
def hwOk : HwFinish := { stopped := true, error := false, errorsrc := 0, poll := [] }

/-- Witness for C7 at a concrete input: read_with_register(0, 0x50,
0x1234, buf, 4, REG16). -/
theorem C7_witness :
    ((768 : Nat) ≠ 0 ∧ (0 : Nat) < 4 ∧ (4 : Nat) < 256 ∧ (2 : Nat) < 256 ∧
     (2 : Nat) &&& (I2C_NOSTART ||| I2C_ADDR10 ||| I2C_NOSTOP) = 0 ∧
     s0w.trace = ([] : List Ev) ∧
     (i2c_read_regs 0 80 4660 768 4 2 s0w hwOk).stOf =
       some (stateOf (i2c_read_regs 0 80 4660 768 4 2 s0w hwOk) s0w)) ∧
    ((stateOf (i2c_read_regs 0 80 4660 768 4 2 s0w hwOk) s0w).regs
       (busBase 0 + SHORTS_I) =
       (TWIM_SHORTS_LASTTX_STARTRX_Msk ||| TWIM_SHORTS_LASTRX_STOP_Msk) ∧
     (stateOf (i2c_read_regs 0 80 4660 768 4 2 s0w hwOk) s0w).regs
       (busBase 0 + TXD_MAXCNT_I) =
       (if (2 : Nat) &&& I2C_REG16 ≠ 0 then 2 else 1) ∧
     (stateOf (i2c_read_regs 0 80 4660 768 4 2 s0w hwOk) s0w).regs
       (busBase 0 + RXD_MAXCNT_I) = 4 ∧
     countW (stateOf (i2c_read_regs 0 80 4660 768 4 2 s0w hwOk) s0w).trace
       (busBase 0 + TASKS_STARTTX_I) = 1 ∧
     countW (stateOf (i2c_read_regs 0 80 4660 768 4 2 s0w hwOk) s0w).trace
       (busBase 0 + TASKS_STARTRX_I) = 0 ∧
     countW (stateOf (i2c_read_regs 0 80 4660 768 4 2 s0w hwOk) s0w).trace
       (busBase 0 + TASKS_STOP_I) = 0 ∧
     (stateOf (i2c_read_regs 0 80 4660 768 4 2 s0w hwOk) s0w).trace.countP
       isWaitBusy = 1 ∧
     Ev.regW (busBase 0 + INTENSET_I)
       (TWIM_INTEN_STOPPED_Msk ||| TWIM_INTEN_ERROR_Msk) ∈
       (stateOf (i2c_read_regs 0 80 4660 768 4 2 s0w hwOk) s0w).trace) :=
  ⟨⟨by decide, by decide, by decide, by decide, by decide, rfl, rfl⟩,
   C7_read_regs_single_transaction 80 4660 768 4 2 s0w hwOk (by decide)
     (by decide) (by decide) (by decide) (by decide) rfl
     (stateOf (i2c_read_regs 0 80 4660 768 4 2 s0w hwOk) s0w) rfl⟩


lemma write_regs0_spec (addr reg ptr len flags : Nat) (s : S) (hw : HwFinish)
    (hptr : ptr ≠ 0) (hlen0 : 0 < len) (hlen : len < 253) (hflags : flags < 256)
    (hfl : flags &&& (I2C_NOSTART ||| I2C_ADDR10) = 0) :
    ∀ s', (i2c_write_regs 0 addr reg ptr len flags s hw).stOf = some s' →
      s'.mem = storeBytes (storeBytes s.mem TX_BUF_ADDR
          (if flags &&& I2C_REG16 ≠ 0
           then [(reg % 65536) >>> 8, reg % 65536 &&& 255] else [reg % 65536 % 256]))
        (TX_BUF_ADDR + (if flags &&& I2C_REG16 ≠ 0 then 2 else 1))
        (bytesAt (storeBytes s.mem TX_BUF_ADDR
          (if flags &&& I2C_REG16 ≠ 0
           then [(reg % 65536) >>> 8, reg % 65536 &&& 255] else [reg % 65536 % 256]))
          ptr len) ∧
      s'.bufLocked = false ∧
      s'.regs 4100 = addr % 65536 ∧
      s'.regs 4101 = TX_BUF_ADDR ∧
      s'.regs 4102 = (if flags &&& I2C_REG16 ≠ 0 then 2 else 1) + len ∧
      s'.trace = s.trace ++
        (Ev.lockBuf ::
         Ev.copy (TX_BUF_ADDR + (if flags &&& I2C_REG16 ≠ 0 then 2 else 1)) ptr len ::
         Ev.regW 4100 (addr % 65536) :: Ev.regW 4101 TX_BUF_ADDR ::
         Ev.regW 4102 ((if flags &&& I2C_REG16 ≠ 0 then 2 else 1) + len) ::
         Ev.regW 4105 (if flags &&& I2C_NOSTOP = 0 then 512 else 0) ::
         Ev.regW 4112 1 ::
         (finTrace (if flags &&& I2C_NOSTOP = 0 then 2 else 16777216) hw ++
           [Ev.unlockBuf])) := by
  have hm : flags % 256 = flags := Nat.mod_eq_of_lt hflags
  have hfl' : flags % 256 &&& (I2C_NOSTART ||| I2C_ADDR10) = 0 := by
    rw [hm]; exact hfl
  have hmod1 : (addr % 65536) % 4294967296 = addr % 65536 :=
    Nat.mod_eq_of_lt (by omega)
  intro s' h
  simp only [i2c_write_regs] at h
  rw [if_pos ⟨by decide, hptr, hlen0, hlen⟩, if_neg (not_ne_iff.mpr hfl')] at h
  by_cases hreg : flags % 256 &&& I2C_REG16 = 0
  · rw [if_neg (not_ne_iff.mpr hreg)] at h
    obtain ⟨s1, hd, hmem', hregs', hbuf', htr'⟩ := unlockAfter_stOf _ _ h
    rw [direct0_ok _ _ _ _ _ _ (by decide) (by omega) (by omega) hfl'] at hd
    obtain ⟨hmem, hbuf, hpres, h8, h9, h10, htr⟩ := finish0_stOf _ _ _ _ hd
    have hreg2 : flags &&& 2 = 0 := by rw [hm] at hreg; simpa using hreg
    have hmod2 : (1 + len) % 256 = 1 + len := by omega
    have hmod3 : (1 + len) % 256 % 4294967296 = 1 + len := by omega
    refine ⟨?_, hbuf', ?_, ?_, ?_, ?_⟩
    · rw [hmem', hmem]
      simp [pipOut, hm, hreg2]
    · rw [hregs', hpres 4100 (by omega) (by omega) (by omega) (by omega)]
      simp [pipOut, hmod1]
    · rw [hregs', hpres 4101 (by omega) (by omega) (by omega) (by omega)]
      simp [pipOut]
    · rw [hregs', hpres 4102 (by omega) (by omega) (by omega) (by omega)]
      simp [pipOut, hmod3, hreg2]
    · rw [htr', htr]
      simp [pipOut, hm, hreg2, hmod2]
  · rw [if_pos hreg] at h
    obtain ⟨s1, hd, hmem', hregs', hbuf', htr'⟩ := unlockAfter_stOf _ _ h
    rw [direct0_ok _ _ _ _ _ _ (by decide) (by omega) (by omega) hfl'] at hd
    obtain ⟨hmem, hbuf, hpres, h8, h9, h10, htr⟩ := finish0_stOf _ _ _ _ hd
    have hreg2 : flags &&& 2 ≠ 0 := by rw [hm] at hreg; simpa using hreg
    have hmod2 : (2 + len) % 256 = 2 + len := by omega
    have hmod3 : (2 + len) % 256 % 4294967296 = 2 + len := by omega
    refine ⟨?_, hbuf', ?_, ?_, ?_, ?_⟩
    · rw [hmem', hmem]
      simp [pipOut, hm, hreg2]
    · rw [hregs', hpres 4100 (by omega) (by omega) (by omega) (by omega)]
      simp [pipOut, hmod1]
    · rw [hregs', hpres 4101 (by omega) (by omega) (by omega) (by omega)]
      simp [pipOut]
    · rw [hregs', hpres 4102 (by omega) (by omega) (by omega) (by omega)]
      simp [pipOut, hmod3, hreg2]
    · rw [htr', htr]
      simp [pipOut, hm, hreg2, hmod2]

lemma land255_eq_mod (n : Nat) : n &&& 255 = n % 256 := by
  have h := Nat.and_pow_two_sub_one_eq_mod n 8
  simpa using h

lemma bytesAt_one (m : Nat → Nat) (p : Nat) : bytesAt m p 1 = [m p] := by
  rw [bytesAt, show List.range 1 = [0] from rfl]
  simp

/-- C4: in both register-prefixed operations, a 16-bit register value R
appears on the staged (write) or wire (read) buffer as the two
big-endian bytes R>>8 and R&0xFF, and an 8-bit register value as the
single byte R&0xFF. -/
theorem C4_register_selector_endianness (addr reg ptr len flags : Nat) (s : S)
    (hw : HwFinish) (hptr : ptr ≠ 0) (hlen0 : 0 < len) (hreg16 : reg < 65536)
    (hflags : flags < 256) :
    (len < 253 → flags &&& (I2C_NOSTART ||| I2C_ADDR10) = 0 →
      ∀ s', (i2c_write_regs 0 addr reg ptr len flags s hw).stOf = some s' →
        (flags &&& I2C_REG16 ≠ 0 →
          bytesAt s'.mem TX_BUF_ADDR 2 = [reg >>> 8, reg &&& 255]) ∧
        (flags &&& I2C_REG16 = 0 →
          bytesAt s'.mem TX_BUF_ADDR 1 = [reg &&& 255])) ∧
    (len < 256 → flags &&& (I2C_NOSTART ||| I2C_ADDR10 ||| I2C_NOSTOP) = 0 →
      ∀ s', (i2c_read_regs 0 addr reg ptr len flags s hw).stOf = some s' →
        (flags &&& I2C_REG16 ≠ 0 → wireTx 0 s' = [reg >>> 8, reg &&& 255]) ∧
        (flags &&& I2C_REG16 = 0 → wireTx 0 s' = [reg &&& 255])) := by
  have hm : flags % 256 = flags := Nat.mod_eq_of_lt hflags
  have hr : reg % 65536 = reg := Nat.mod_eq_of_lt hreg16
  have hb : reg &&& 255 = reg % 256 := land255_eq_mod reg
  constructor
  · intro hlen hfl s' h
    obtain ⟨hmem, hbuf, h00, h01, h02, htr⟩ :=
      write_regs0_spec addr reg ptr len flags s hw hptr hlen0 hlen hflags hfl s' h
    constructor
    · intro hflag16
      rw [hmem, if_pos hflag16, if_pos hflag16]
      rw [show (2 : Nat) = [(reg % 65536) >>> 8, reg % 65536 &&& 255].length by simp]
      rw [bytesAt_storeBytes_outside _ _ _ _ _ (Or.inl (by simp))]
      rw [bytesAt_storeBytes]
      rw [hr]
    · intro hflag16
      rw [hmem, if_neg (by simpa using hflag16), if_neg (by simpa using hflag16)]
      rw [show (1 : Nat) = [reg % 65536 % 256].length by simp]
      rw [bytesAt_storeBytes_outside _ _ _ _ _ (Or.inl (by simp))]
      rw [bytesAt_storeBytes]
      rw [hr, hb]
  · intro hlen hfl s' h
    have hfl' : flags % 256 &&& (I2C_NOSTART ||| I2C_ADDR10 ||| I2C_NOSTOP) = 0 := by
      rw [hm]; exact hfl
    simp only [i2c_read_regs] at h
    rw [if_pos ⟨by decide, hptr, hlen0, hlen⟩, if_neg (not_ne_iff.mpr hfl')] at h
    by_cases hreg : flags % 256 &&& I2C_REG16 = 0
    · rw [if_neg (not_ne_iff.mpr hreg)] at h
      obtain ⟨hmem, hbuf, hpres, h8, h9, h10, htr⟩ := finish0_stOf _ _ _ _ h
      have hreg2 : ¬ flags &&& I2C_REG16 ≠ 0 := by
        rw [hm] at hreg; simpa using hreg
      refine ⟨fun hc => absurd hc hreg2, fun _ => ?_⟩
      have hptrv : s'.regs 4101 = 536903680 := by
        rw [hpres 4101 (by omega) (by omega) (by omega) (by omega)]
        simp [pipOut]
      have hcntv : s'.regs 4102 = 1 := by
        rw [hpres 4102 (by omega) (by omega) (by omega) (by omega)]
        simp [pipOut]
      have hmemv : s'.mem = storeBytes s.mem REG_STACK_ADDR [reg % 65536 % 256, (reg % 65536) >>> 8] := by
        rw [hmem]
        simp [pipOut]
      rw [show wireTx 0 s' = bytesAt s'.mem (s'.regs 4101) (s'.regs 4102) by
        simp [wireTx]]
      rw [hptrv, hcntv, hmemv, show (536903680 : Nat) = REG_STACK_ADDR by simp]
      rw [bytesAt_one]
      have hget := storeBytes_getD [reg % 65536 % 256, (reg % 65536) >>> 8]
        s.mem REG_STACK_ADDR 0 (by simp)
      rw [Nat.add_zero] at hget
      rw [hget]
      simp [hr, hb]
    · rw [if_pos hreg] at h
      obtain ⟨hmem, hbuf, hpres, h8, h9, h10, htr⟩ := finish0_stOf _ _ _ _ h
      have hreg2 : flags &&& I2C_REG16 ≠ 0 := by
        rw [hm] at hreg; simpa using hreg
      refine ⟨fun _ => ?_, fun hc => absurd hc hreg2⟩
      have hptrv : s'.regs 4101 = 536903680 := by
        rw [hpres 4101 (by omega) (by omega) (by omega) (by omega)]
        simp [pipOut]
      have hcntv : s'.regs 4102 = 2 := by
        rw [hpres 4102 (by omega) (by omega) (by omega) (by omega)]
        simp [pipOut]
      have hmemv : s'.mem = storeBytes s.mem REG_STACK_ADDR [(reg % 65536) >>> 8, reg % 65536 &&& 255] := by
        rw [hmem]
        simp [pipOut]
      rw [show wireTx 0 s' = bytesAt s'.mem (s'.regs 4101) (s'.regs 4102) by
        simp [wireTx]]
      rw [hptrv, hcntv, hmemv, show (536903680 : Nat) = REG_STACK_ADDR by simp]
      rw [show (2 : Nat) = [(reg % 65536) >>> 8, reg % 65536 &&& 255].length by simp]
      rw [bytesAt_storeBytes]
      rw [hr]

/-- Witness for C4 at a concrete input: register 0x1234 with the REG16
flag stages the big-endian bytes 0x12, 0x34. -/
theorem C4_witness :
    ((768 : Nat) ≠ 0 ∧ (0 : Nat) < 2 ∧ (4660 : Nat) < 65536 ∧ (2 : Nat) < 256 ∧
      (2 : Nat) < 253 ∧ (2 : Nat) &&& (I2C_NOSTART ||| I2C_ADDR10) = 0 ∧
      (i2c_write_regs 0 80 4660 768 2 2 s0w hwOk).stOf =
        some (stateOf (i2c_write_regs 0 80 4660 768 2 2 s0w hwOk) s0w) ∧
      (2 : Nat) &&& I2C_REG16 ≠ 0) ∧
    bytesAt (stateOf (i2c_write_regs 0 80 4660 768 2 2 s0w hwOk) s0w).mem
      TX_BUF_ADDR 2 = [4660 >>> 8, 4660 &&& 255] :=
  ⟨⟨by decide, by decide, by decide, by decide, by decide, by decide, rfl, by decide⟩,
   ((C4_register_selector_endianness 80 4660 768 2 2 s0w hwOk (by decide)
       (by decide) (by decide) (by decide)).1 (by decide) (by decide)
     (stateOf (i2c_write_regs 0 80 4660 768 2 2 s0w hwOk) s0w) rfl).1 (by decide)⟩

lemma bytesAt_two_stores (m : Nat → Nat) (p : Nat) (bs1 bs2 : List Nat) :
    bytesAt (storeBytes (storeBytes m p bs1) (p + bs1.length) bs2) p
      (bs1.length + bs2.length) = bs1 ++ bs2 := by
  apply List.ext_getElem
  · simp [bytesAt]
  · intro i h1 h2
    have hi : i < bs1.length + bs2.length := by simpa [bytesAt] using h1
    have hmap : (bytesAt (storeBytes (storeBytes m p bs1) (p + bs1.length) bs2) p
        (bs1.length + bs2.length))[i] =
        storeBytes (storeBytes m p bs1) (p + bs1.length) bs2 (p + i) := by
      simp [bytesAt]
    rw [hmap]
    by_cases hc : i < bs1.length
    · have e1 : storeBytes (storeBytes m p bs1) (p + bs1.length) bs2 (p + i) =
          storeBytes m p bs1 (p + i) :=
        storeBytes_outside _ _ _ _ (Or.inl (by omega))
      have e2 := storeBytes_getD bs1 m p i hc
      rw [e1, e2, List.getElem_append_left hc,
        List.getD_eq_getElem?_getD, List.getElem?_eq_getElem hc]
      rfl
    · have hj : i - bs1.length < bs2.length := by omega
      have e0 : p + i = (p + bs1.length) + (i - bs1.length) := by omega
      have e1 := storeBytes_getD bs2 (storeBytes m p bs1) (p + bs1.length)
        (i - bs1.length) hj
      rw [e0, e1, List.getElem_append_right (by omega),
        List.getD_eq_getElem?_getD, List.getElem?_eq_getElem hj]
      rfl

/-- C5: every accepted register-prefixed write stages the register
selector immediately followed by the payload contiguously in the shared
transaction buffer, does so between taking and releasing the buffer
lock, and issues one single write of exactly selector-length plus
payload-length bytes from the staged buffer (one start-transmit trigger,
one blocking wait). -/
theorem C5_write_regs_staged_contiguous (addr reg ptr len flags : Nat)
    (s : S) (hw : HwFinish) (hptr : ptr ≠ 0) (hlen0 : 0 < len)
    (hlen : len < 253) (hflags : flags < 256)
    (hfl : flags &&& (I2C_NOSTART ||| I2C_ADDR10) = 0)
    (hdisj : ptr + len ≤ TX_BUF_ADDR ∨ TX_BUF_ADDR + 256 ≤ ptr)
    (htr0 : s.trace = []) :
    ∀ s', (i2c_write_regs 0 addr reg ptr len flags s hw).stOf = some s' →
      bytesAt s'.mem TX_BUF_ADDR
          ((if flags &&& I2C_REG16 ≠ 0 then 2 else 1) + len) =
        (if flags &&& I2C_REG16 ≠ 0
         then [(reg % 65536) >>> 8, reg % 65536 &&& 255]
         else [reg % 65536 % 256]) ++ bytesAt s.mem ptr len ∧
      s'.regs (busBase 0 + TXD_PTR_I) = TX_BUF_ADDR ∧
      s'.regs (busBase 0 + TXD_MAXCNT_I) =
        (if flags &&& I2C_REG16 ≠ 0 then 2 else 1) + len ∧
      countW s'.trace (busBase 0 + TASKS_STARTTX_I) = 1 ∧
      s'.trace.countP isWaitBusy = 1 ∧
      (∃ mid, s'.trace = Ev.lockBuf :: mid ++ [Ev.unlockBuf] ∧
        Ev.lockBuf ∉ mid ∧ Ev.unlockBuf ∉ mid ∧
        Ev.copy (TX_BUF_ADDR + (if flags &&& I2C_REG16 ≠ 0 then 2 else 1))
          ptr len ∈ mid) ∧
      s'.bufLocked = false := by
  intro s' h
  obtain ⟨hmem, hbuf, h00, h01, h02, htr⟩ :=
    write_regs0_spec addr reg ptr len flags s hw hptr hlen0 hlen hflags hfl s' h
  set rlen : Nat := if flags &&& I2C_REG16 ≠ 0 then 2 else 1 with hrlen
  set sel : List Nat := if flags &&& I2C_REG16 ≠ 0
    then [(reg % 65536) >>> 8, reg % 65536 &&& 255]
    else [reg % 65536 % 256] with hsel
  have hsellen : sel.length = rlen := by
    rw [hsel, hrlen]
    split <;> simp
  have hpay : bytesAt (storeBytes s.mem TX_BUF_ADDR sel) ptr len =
      bytesAt s.mem ptr len := by
    apply bytesAt_storeBytes_outside
    rcases hdisj with hd | hd
    · left; simpa using hd
    · right
      rw [hsellen, hrlen]
      split <;> omega
  refine ⟨?_, ?_, ?_, ?_, ?_, ?_, hbuf⟩
  · rw [hmem, hpay]
    have h2 := bytesAt_two_stores s.mem TX_BUF_ADDR sel (bytesAt s.mem ptr len)
    rw [hsellen] at h2
    rw [show (bytesAt s.mem ptr len).length = len by simp [bytesAt]] at h2
    exact h2
  · rw [show busBase 0 + TXD_PTR_I = 4101 by simp]
    rw [h01]
  · rw [show busBase 0 + TXD_MAXCNT_I = 4102 by simp]
    rw [h02]
  · rw [show busBase 0 + TASKS_STARTTX_I = 4112 by simp]
    have hf : countW (finTrace (if flags &&& 4 = 0 then 2 else 16777216) hw) 4112 = 0 := by
      simpa using finTrace_countW (if flags &&& I2C_NOSTOP = 0 then 2 else 16777216)
        hw 4112 (by omega) (by omega) (by omega) (by omega)
    simp only [countW] at hf
    rw [htr, htr0]
    simp [countW, List.countP_cons, List.countP_append, hf]
  · have hf : (finTrace (if flags &&& 4 = 0 then 2 else 16777216) hw).countP isWaitBusy = 1 := by
      simpa using finTrace_waitBusy (if flags &&& I2C_NOSTOP = 0 then 2 else 16777216) hw
    rw [htr, htr0]
    simp [List.countP_cons, List.countP_append, isWaitBusy, hf]
  · refine ⟨Ev.copy (TX_BUF_ADDR + rlen) ptr len ::
      Ev.regW 4100 (addr % 65536) :: Ev.regW 4101 TX_BUF_ADDR ::
      Ev.regW 4102 (rlen + len) ::
      Ev.regW 4105 (if flags &&& I2C_NOSTOP = 0 then 512 else 0) ::
      Ev.regW 4112 1 ::
      finTrace (if flags &&& I2C_NOSTOP = 0 then 2 else 16777216) hw, ?_, ?_, ?_, ?_⟩
    · rw [htr, htr0]
      simp
    · have hnl : Ev.lockBuf ∉ finTrace (if flags &&& 4 = 0 then 2 else 16777216) hw := by
        simpa using (finTrace_no_lock (if flags &&& I2C_NOSTOP = 0 then 2 else 16777216) hw).1
      simp [hnl]
    · have hnl : Ev.unlockBuf ∉ finTrace (if flags &&& 4 = 0 then 2 else 16777216) hw := by
        simpa using (finTrace_no_lock (if flags &&& I2C_NOSTOP = 0 then 2 else 16777216) hw).2
      simp [hnl]
    · simp

/-- Initial state for the C5 witness: payload bytes 0xAA, 0xBB at
address 768 (outside RAM, so write_with_register stages them). -/
def sW : S :=
  { mem := fun a => if a = 768 then 170 else if a = 769 then 187 else 0,
    regs := fun _ => 0, bufLocked := false, trace := [] }

/-- Witness for C5 at the spec's concrete scenario:
write_with_register(0, 0x50, 0x10, [0xAA,0xBB], 2, NONE) stages
[0x10,0xAA,0xBB] and issues one write of 3 bytes to address 0x50. -/
theorem C5_witness :
    ((768 : Nat) ≠ 0 ∧ (0 : Nat) < 2 ∧ (2 : Nat) < 253 ∧ (0 : Nat) < 256 ∧
     (0 : Nat) &&& (I2C_NOSTART ||| I2C_ADDR10) = 0 ∧
     ((768 : Nat) + 2 ≤ TX_BUF_ADDR ∨ TX_BUF_ADDR + 256 ≤ 768) ∧
     sW.trace = ([] : List Ev)) ∧
    bytesAt (stateOf (i2c_write_regs 0 80 16 768 2 0 sW hwOk) s0w).mem
      TX_BUF_ADDR ((if (0 : Nat) &&& I2C_REG16 ≠ 0 then 2 else 1) + 2) =
      (if (0 : Nat) &&& I2C_REG16 ≠ 0
       then [((16 : Nat) % 65536) >>> 8, (16 : Nat) % 65536 &&& 255]
       else [(16 : Nat) % 65536 % 256]) ++ bytesAt sW.mem 768 2 ∧
    bytesAt (stateOf (i2c_write_regs 0 80 16 768 2 0 sW hwOk) s0w).mem
      TX_BUF_ADDR 3 = [16, 170, 187] ∧
    (stateOf (i2c_write_regs 0 80 16 768 2 0 sW hwOk) s0w).regs
      (busBase 0 + TXD_MAXCNT_I) =
      (if (0 : Nat) &&& I2C_REG16 ≠ 0 then 2 else 1) + 2 ∧
    (stateOf (i2c_write_regs 0 80 16 768 2 0 sW hwOk) s0w).regs
      (busBase 0 + ADDRESS_I) = 80 ∧
    countW (stateOf (i2c_write_regs 0 80 16 768 2 0 sW hwOk) s0w).trace
      (busBase 0 + TASKS_STARTTX_I) = 1 := by
  have happ := C5_write_regs_staged_contiguous 80 16 768 2 0 sW hwOk (by decide)
    (by decide) (by decide) (by decide) (by decide) (by decide) rfl
    (stateOf (i2c_write_regs 0 80 16 768 2 0 sW hwOk) s0w) rfl
  exact ⟨⟨by decide, by decide, by decide, by decide, by decide, by decide, rfl⟩,
    happ.1, by rfl, happ.2.2.1, by rfl, happ.2.2.2.1⟩

/-- C8: an accepted plain write whose source lies in the
DMA-addressable RAM range programs the hardware transmit pointer to the
caller's buffer directly, while any other source is copied into the
shared transaction buffer under its lock and the same direct path runs
on the staged copy with the lock released afterwards; both paths present
exactly the caller's len bytes to the hardware and return the same
result. -/
theorem C8_write_direct_staged_equivalence (addr len flags pIn pOut : Nat)
    (sIn sOut : S) (hw : HwFinish) (hlen0 : 0 < len) (hlen : len < 256)
    (hflags : flags < 256) (hfl : flags &&& (I2C_NOSTART ||| I2C_ADDR10) = 0)
    (hin : CPU_RAM_BASE ≤ pIn ∧ pIn < CPU_RAM_BASE + CPU_RAM_SIZE)
    (hout : ¬(CPU_RAM_BASE ≤ pOut ∧ pOut < CPU_RAM_BASE + CPU_RAM_SIZE))
    (hpout : pOut ≠ 0) :
    i2c_write_bytes 0 addr pIn len flags sIn hw =
      direct_i2c_write_bytes 0 addr pIn len flags sIn hw ∧
    (∀ s', (i2c_write_bytes 0 addr pIn len flags sIn hw).stOf = some s' →
      s'.regs (busBase 0 + TXD_PTR_I) = pIn ∧
      wireTx 0 s' = bytesAt sIn.mem pIn len) ∧
    (∀ s', (i2c_write_bytes 0 addr pOut len flags sOut hw).stOf = some s' →
      s'.regs (busBase 0 + TXD_PTR_I) = TX_BUF_ADDR ∧
      wireTx 0 s' = bytesAt sOut.mem pOut len ∧
      s'.bufLocked = false) ∧
    (i2c_write_bytes 0 addr pIn len flags sIn hw).retOf =
      (i2c_write_bytes 0 addr pOut len flags sOut hw).retOf := by
  have hm : flags % 256 = flags := Nat.mod_eq_of_lt hflags
  have hfl' : flags % 256 &&& (I2C_NOSTART ||| I2C_ADDR10) = 0 := by
    rw [hm]; exact hfl
  have hpin : pIn ≠ 0 := by
    simp only [CPU_RAM_BASE] at hin
    omega
  have hml : len % 256 = len := Nat.mod_eq_of_lt hlen
  have hbody1 : i2c_write_bytes 0 addr pIn len flags sIn hw =
      direct_i2c_write_bytes 0 addr pIn len flags sIn hw := by
    simp only [i2c_write_bytes]
    rw [if_pos hin]
  have hbody2 : i2c_write_bytes 0 addr pOut len flags sOut hw =
      unlockAfter (direct_i2c_write_bytes 0 addr TX_BUF_ADDR len flags
        { sOut with
          mem := storeBytes sOut.mem TX_BUF_ADDR (bytesAt sOut.mem pOut len),
          bufLocked := true,
          trace := sOut.trace ++ [Ev.lockBuf] ++ [Ev.copy TX_BUF_ADDR pOut len] }
        hw) := by
    simp only [i2c_write_bytes]
    rw [if_neg hout, if_pos ⟨hlen0, hlen⟩, if_neg hpout]
  have hpin32 : pIn % 4294967296 = pIn := by
    simp only [CPU_RAM_BASE, CPU_RAM_SIZE] at hin
    exact Nat.mod_eq_of_lt (by omega)
  refine ⟨hbody1, ?_, ?_, ?_⟩
  · intro s' h
    rw [hbody1, direct0_ok _ _ _ _ _ _ hpin hlen0 hlen hfl'] at h
    obtain ⟨hmem, hbuf, hpres, h8, h9, h10, htr⟩ := finish0_stOf _ _ _ _ h
    have hp : s'.regs 4101 = pIn := by
      rw [hpres 4101 (by omega) (by omega) (by omega) (by omega)]
      simp [pipOut, hpin32]
    have hc : s'.regs 4102 = len := by
      rw [hpres 4102 (by omega) (by omega) (by omega) (by omega)]
      simp [pipOut, hml]
      omega
    have hmm : s'.mem = sIn.mem := by
      rw [hmem]
      simp [pipOut]
    refine ⟨by simpa using hp, ?_⟩
    rw [show wireTx 0 s' = bytesAt s'.mem (s'.regs 4101) (s'.regs 4102) by
      simp [wireTx]]
    rw [hp, hc, hmm]
  · intro s' h
    rw [hbody2] at h
    obtain ⟨s1, hd, hmem', hregs', hbuf', htr'⟩ := unlockAfter_stOf _ _ h
    rw [direct0_ok _ _ _ _ _ _ (by decide) hlen0 hlen hfl'] at hd
    obtain ⟨hmem, hbuf, hpres, h8, h9, h10, htr⟩ := finish0_stOf _ _ _ _ hd
    have hp : s'.regs 4101 = TX_BUF_ADDR := by
      rw [hregs', hpres 4101 (by omega) (by omega) (by omega) (by omega)]
      simp [pipOut]
    have hc : s'.regs 4102 = len := by
      rw [hregs', hpres 4102 (by omega) (by omega) (by omega) (by omega)]
      simp [pipOut, hml]
      omega
    have hmm : s'.mem = storeBytes sOut.mem TX_BUF_ADDR (bytesAt sOut.mem pOut len) := by
      rw [hmem', hmem]
      simp [pipOut]
    refine ⟨by simpa using hp, ?_, hbuf'⟩
    rw [show wireTx 0 s' = bytesAt s'.mem (s'.regs 4101) (s'.regs 4102) by
      simp [wireTx]]
    rw [hp, hc, hmm]
    have hbs := bytesAt_storeBytes (bytesAt sOut.mem pOut len) sOut.mem TX_BUF_ADDR
    rw [show (bytesAt sOut.mem pOut len).length = len by simp [bytesAt]] at hbs
    exact hbs
  · rw [hbody1, hbody2, unlockAfter_retOf,
      direct0_ok _ _ _ _ _ _ hpin hlen0 hlen hfl',
      direct0_ok _ _ _ _ _ _ (by decide) hlen0 hlen hfl',
      finish0_retOf, finish0_retOf]
    have m1 : (pipOut (pipOut (pipOut (pipOut (pipOut sIn 4100 (addr % 65536))
        4101 pIn) 4102 (len % 256)) 4105
          (if flags % 256 &&& I2C_NOSTOP = 0 then 512 else 0)) 4112 1).regs 4102 =
        len % 256 := by
      simp [pipOut]
      omega
    have m2 : (pipOut (pipOut (pipOut (pipOut (pipOut
        { sOut with
          mem := storeBytes sOut.mem TX_BUF_ADDR (bytesAt sOut.mem pOut len),
          bufLocked := true,
          trace := sOut.trace ++ [Ev.lockBuf] ++ [Ev.copy TX_BUF_ADDR pOut len] }
        4100 (addr % 65536)) 4101 TX_BUF_ADDR) 4102 (len % 256)) 4105
          (if flags % 256 &&& I2C_NOSTOP = 0 then 512 else 0)) 4112 1).regs 4102 =
        len % 256 := by
      simp [pipOut]
      omega
    rw [m1, m2]

/-- Initial state for the C8 witness: payload bytes 0xAA, 0xBB in the
DMA-addressable RAM range at address 0x20005000. -/
def sR : S :=
  { mem := fun a => if a = 536891392 then 170 else if a = 536891393 then 187 else 0,
    regs := fun _ => 0, bufLocked := false, trace := [] }

/-- Witness for C8 at a concrete input: one source inside RAM, one
outside; the in-RAM call is the direct path and both calls return the
same result. -/
theorem C8_witness :
    ((0 : Nat) < 2 ∧ (2 : Nat) < 256 ∧ (0 : Nat) < 256 ∧
     (0 : Nat) &&& (I2C_NOSTART ||| I2C_ADDR10) = 0 ∧
     (CPU_RAM_BASE ≤ 536891392 ∧ (536891392 : Nat) < CPU_RAM_BASE + CPU_RAM_SIZE) ∧
     ¬(CPU_RAM_BASE ≤ 768 ∧ (768 : Nat) < CPU_RAM_BASE + CPU_RAM_SIZE) ∧
     (768 : Nat) ≠ 0) ∧
    i2c_write_bytes 0 80 536891392 2 0 sR hwOk =
      direct_i2c_write_bytes 0 80 536891392 2 0 sR hwOk ∧
    (i2c_write_bytes 0 80 536891392 2 0 sR hwOk).retOf =
      (i2c_write_bytes 0 80 768 2 0 sW hwOk).retOf :=
  ⟨⟨by decide, by decide, by decide, by decide, by decide, by decide, by decide⟩,
   (C8_write_direct_staged_equivalence 80 2 0 536891392 768 sR sW hwOk
     (by decide) (by decide) (by decide) (by decide) (by decide) (by decide)
     (by decide)).1,
   (C8_write_direct_staged_equivalence 80 2 0 536891392 768 sR sW hwOk
     (by decide) (by decide) (by decide) (by decide) (by decide) (by decide)
     (by decide)).2.2.2⟩
